import Mathlib

/-!
Verification development for the CSV import pipeline in
`app/import_script.py` (with its HTTP wrapper `app/main.py`).

The Python code is shallowly embedded as follows.

* A pandas cell / Python value is `PyVal`.  `PyVal.none` stands for
  `None`/`NaN` (everything `pd.isna` accepts).  Floats are modelled as
  exact rationals plus the special values `inf`/`nan`; IEEE rounding is
  not modelled, which is harmless here because the claims only depend on
  whether a conversion succeeds, fails with a caught exception, or fails
  with an uncaught exception.
* `datetime.now()` is modelled by a logical clock in the run state: each
  call returns the current tick and advances the clock, so two distinct
  calls return distinct instants.  A clock-produced datetime is
  `DateTimeV.clock t`; a `strptime`-produced one is `DateTimeV.parts`.
* Exceptions raised by `int(...)`, `float(...)`, `strptime(...)` are
  modelled by `PyErr`.  The source's `except (ValueError, TypeError)`
  clauses catch exactly `valueError` and `typeError`; an
  `overflowError` (raised by `int(float('inf'))`) is not caught.
* The database, the SFTP transport and the filesystem are oracles
  (`Oracles`, `Transport`): pure functions supplying the schema result,
  per-statement failure outcomes, file contents and sizes.  Every
  database round trip is recorded in an event trace (`Event`), which is
  what the truncate/insert ordering claims are stated about.
-/

/-- A calendar date as produced by `datetime.strptime(v, "%Y-%m-%d").date()`. -/
structure PyDate where
  year : Nat
  month : Nat
  day : Nat
deriving DecidableEq, Repr

/-- A Python `datetime` value.  `clock t` is a value returned by the
modelled `datetime.now()` at tick `t`; `parts` is a value built by
`datetime.strptime(v, "%Y-%m-%d %H:%M:%S")`. -/
inductive DateTimeV where
  | clock (tick : Nat)
  | parts (year month day hour minute second : Nat)
deriving DecidableEq, Repr

/-- A Python float: an exact finite value, an infinity, or NaN. -/
inductive PyFloat where
  | finite (q : ℚ)
  | inf (neg : Bool)
  | nan
deriving DecidableEq, Repr

/-- A Python value as it can appear in a DataFrame cell or in a built
parameter tuple.  `none` stands for `None`/`NaN` (the values `pd.isna`
recognises). -/
inductive PyVal where
  | none
  | str (s : String)
  | int (n : Int)
  | float (f : PyFloat)
  | date (d : PyDate)
  | datetime (d : DateTimeV)
deriving DecidableEq, Repr

/-- The exception classes relevant to the coercion code.  The source
catches `(ValueError, TypeError)`; `OverflowError` is a distinct class
(a subclass of `ArithmeticError`) and is not caught by those clauses. -/
inductive PyErr where
  | valueError
  | typeError
  | overflowError
deriving DecidableEq, Repr

/-- Whether an exception is caught by `except (ValueError, TypeError)`. -/
def PyErr.caught : PyErr → Bool
  | .valueError => true
  | .typeError => true
  | .overflowError => false

/-- Numeric value of a list of decimal digit characters. -/
def digitsToNat (cs : List Char) : Nat :=
  cs.foldl (fun acc c => acc * 10 + (c.toNat - 48)) 0

/-- Whitespace as stripped by Python's `str.strip()`. -/
def isPySpace (c : Char) : Bool :=
  c = ' ' ∨ c = '\t' ∨ c = '\n' ∨ c = '\r' ∨ c = '\x0b' ∨ c = '\x0c'

/-- `str.strip()` on the character list of a string. -/
def trimChars (cs : List Char) : List Char :=
  ((cs.dropWhile isPySpace).reverse.dropWhile isPySpace).reverse

/-- Peel one optional leading sign, returning (is-negative, rest). -/
def signSplit : List Char → Bool × List Char
  | '-' :: rest => (true, rest)
  | '+' :: rest => (false, rest)
  | cs => (false, cs)

/-- ASCII lower-casing on character codes (Python's `str.lower()`; the
column names and type names involved are ASCII). -/
def lowerNat (c : Char) : Nat :=
  if 65 ≤ c.toNat ∧ c.toNat ≤ 90 then c.toNat + 32 else c.toNat

/-- `a.lower() == b.lower()` for character lists. -/
def caseInsensitiveEqL (a b : List Char) : Bool :=
  a.map lowerNat = b.map lowerNat

/-- `a.lower() == b.lower()` for strings. -/
def caseInsensitiveEq (a b : String) : Bool :=
  caseInsensitiveEqL a.data b.data

/-- Structural list-prefix test. -/
def listIsPrefixB : List Char → List Char → Bool
  | [], _ => true
  | _ :: _, [] => false
  | a :: as, b :: bs => a = b && listIsPrefixB as bs

/-- Structural list-infix test (Python's `needle in haystack`). -/
def listIsInfixB (needle : List Char) : List Char → Bool
  | [] => listIsPrefixB needle []
  | b :: bs => listIsPrefixB needle (b :: bs) || listIsInfixB needle bs

/-- `s.endswith(post)`. -/
def strEndsWith (s post : String) : Bool :=
  listIsPrefixB post.data.reverse s.data.reverse

/-- `int(s)` for a string `s`: strip whitespace, optional sign, then a
nonempty run of decimal digits.  (Python's underscore digit separators
and non-ASCII digits are not modelled.)  `Option.none` means the call
raises `ValueError`. -/
def pyIntOfString (s : String) : Option Int :=
  let sc := signSplit (trimChars s.data)
  if sc.2 ≠ [] ∧ sc.2.all (fun c => c.isDigit) then
    some (if sc.1 then -(digitsToNat sc.2 : Int) else (digitsToNat sc.2 : Int))
  else
    Option.none

/-- Split a character list at the first exponent marker `e`/`E`. -/
def splitExpMark : List Char → List Char × Option (List Char)
  | [] => ([], Option.none)
  | c :: rest =>
    if c = 'e' ∨ c = 'E' then ([], some rest)
    else
      let (m, e) := splitExpMark rest
      (c :: m, e)

/-- Parse the mantissa part of a float literal: `digits`, `digits.digits`,
`digits.` or `.digits` (at least one digit overall, at most one dot). -/
def parseMantissa (cs : List Char) : Option ℚ :=
  let intPart := cs.takeWhile (fun c => c ≠ '.')
  let rest := cs.dropWhile (fun c => c ≠ '.')
  match rest with
  | [] =>
    if intPart ≠ [] ∧ intPart.all (fun c => c.isDigit) then
      some ((digitsToNat intPart : ℚ))
    else Option.none
  | _ :: frac =>
    if (intPart ++ frac ≠ []) ∧ (intPart ++ frac).all (fun c => c.isDigit) then
      some ((digitsToNat intPart : ℚ) + (digitsToNat frac : ℚ) / (10 : ℚ) ^ frac.length)
    else Option.none

/-- Parse an exponent part: optional sign then a nonempty digit run. -/
def parseExpPart (cs : List Char) : Option Int :=
  let (neg, core) :=
    match cs with
    | '-' :: rest => (true, rest)
    | '+' :: rest => (false, rest)
    | _ => (false, cs)
  if core ≠ [] ∧ core.all (fun c => c.isDigit) then
    some (if neg then -(digitsToNat core : Int) else (digitsToNat core : Int))
  else Option.none

/-- `float(s)` for a string `s`: strip whitespace, optional sign, then
either an `inf`/`infinity`/`nan` keyword (case-insensitive) or a decimal
mantissa with optional exponent.  `Option.none` means `ValueError`. -/
def pyFloatOfString (s : String) : Option PyFloat :=
  let sc := signSplit (trimChars s.data)
  let neg := sc.1
  let core := sc.2
  if caseInsensitiveEqL core "inf".data ∨ caseInsensitiveEqL core "infinity".data then
    some (.inf neg)
  else if caseInsensitiveEqL core "nan".data then some .nan
  else
    let (mant, expPart) := splitExpMark core
    match parseMantissa mant with
    | Option.none => Option.none
    | some q =>
      match expPart with
      | Option.none => some (.finite (if neg then -q else q))
      | some es =>
        match parseExpPart es with
        | Option.none => Option.none
        | some e =>
          let v := q * (10 : ℚ) ^ e
          some (.finite (if neg then -v else v))

/-- Truncation toward zero, the behaviour of Python `int(float)`. -/
def ratTruncToInt (q : ℚ) : Int :=
  if q < 0 then -((-q).floor) else q.floor

/-- `int(value)`: result of Python's `int()` applied to a cell value, or
the exception it raises.  `int(float('inf'))` raises `OverflowError`,
`int(float('nan'))` raises `ValueError`, `int(None)` and
`int(<date/datetime>)` raise `TypeError`. -/
def pyInt : PyVal → Except PyErr Int
  | .none => .error .typeError
  | .str s =>
    match pyIntOfString s with
    | some n => .ok n
    | Option.none => .error .valueError
  | .int n => .ok n
  | .float (.finite q) => .ok (ratTruncToInt q)
  | .float (.inf _) => .error .overflowError
  | .float .nan => .error .valueError
  | .date _ => .error .typeError
  | .datetime _ => .error .typeError

/-- `float(value)`: result of Python's `float()` applied to a cell value,
or the exception it raises.  (Overflow of a huge integer argument is not
modelled; floats are exact here.) -/
def pyFloat : PyVal → Except PyErr PyFloat
  | .none => .error .typeError
  | .str s =>
    match pyFloatOfString s with
    | some f => .ok f
    | Option.none => .error .valueError
  | .int n => .ok (.finite (n : ℚ))
  | .float f => .ok f
  | .date _ => .error .typeError
  | .datetime _ => .error .typeError

/-- Number of days in a month, with the Gregorian leap-year rule, as
validated by `strptime`. -/
def daysInMonth (y m : Nat) : Nat :=
  if m = 2 then
    if y % 4 = 0 ∧ (y % 100 ≠ 0 ∨ y % 400 = 0) then 29 else 28
  else if m = 4 ∨ m = 6 ∨ m = 9 ∨ m = 11 then 30
  else 31

/-- Structural split of a character list at a separator character. -/
def splitOnChar (sep : Char) : List Char → List (List Char)
  | [] => [[]]
  | c :: rest =>
    if c = sep then [] :: splitOnChar sep rest
    else
      match splitOnChar sep rest with
      | [] => [[c]]
      | g :: gs => (c :: g) :: gs

/-- A digit run of length at least 1 and at most `k`. -/
def digitField (k : Nat) (cs : List Char) : Option Nat :=
  if cs ≠ [] ∧ cs.length ≤ k ∧ cs.all (fun c => c.isDigit) then
    some (digitsToNat cs)
  else Option.none

/-- `datetime.strptime(v, "%Y-%m-%d").date()`: three dash-separated digit
fields with range validation.  `Option.none` means `ValueError`. -/
def parseDateStr (s : String) : Option PyDate :=
  match splitOnChar '-' s.data with
  | [ys, ms, ds] =>
    match digitField 4 ys, digitField 2 ms, digitField 2 ds with
    | some y, some m, some d =>
      if 1 ≤ m ∧ m ≤ 12 ∧ 1 ≤ d ∧ d ≤ daysInMonth y m then
        some ⟨y, m, d⟩
      else Option.none
    | _, _, _ => Option.none
  | _ => Option.none

/-- `datetime.strptime(v, "%Y-%m-%d %H:%M:%S")`.  `Option.none` means
`ValueError`. -/
def parseTimestampStr (s : String) : Option DateTimeV :=
  match splitOnChar ' ' s.data with
  | [datePart, timePart] =>
    match parseDateStr (String.mk datePart) with
    | some d =>
      match splitOnChar ':' timePart with
      | [hs, ms, ss] =>
        match digitField 2 hs, digitField 2 ms, digitField 2 ss with
        | some h, some mi, some sec =>
          if h ≤ 23 ∧ mi ≤ 59 ∧ sec ≤ 59 then
            some (.parts d.year d.month d.day h mi sec)
          else Option.none
        | _, _, _ => Option.none
      | _ => Option.none
    | Option.none => Option.none
  | _ => Option.none

/-- The integer-family type names tested at line 211 of the source. -/
def intTypes : List String := ["integer", "bigint", "smallint"]

/-- The floating-family type names tested at line 218 of the source. -/
def floatTypes : List String := ["numeric", "decimal", "real", "double precision"]

/-- Whether `pd.isna(value) or value == ''` holds. -/
def isBlankCell (v : PyVal) : Bool :=
  v = PyVal.none ∨ v = PyVal.str ""

/-- The `try/except (ValueError, TypeError)` wrapper around one
conversion: a caught exception degrades to appending `None`; an uncaught
one propagates. -/
def coerceCaught (r : Except PyErr PyVal) : Except PyErr PyVal :=
  match r with
  | .ok w => .ok w
  | .error e => if e.caught then .ok .none else .error e

/-- The per-cell type coercion of `process_dataframe` (source lines
204-248): the if/elif chain over the declared column type, with each
conversion wrapped in `try/except (ValueError, TypeError)`.  The result
is `.ok` with the coerced value (or `.ok .none` when a caught failure is
degraded to null), or `.error` when an uncaught exception escapes. -/
def coerceValue (colType : String) (v : PyVal) : Except PyErr PyVal :=
  if isBlankCell v then .ok .none
  else if colType ∈ intTypes then
    coerceCaught ((pyInt v).map (fun n => PyVal.int n))
  else if colType ∈ floatTypes then
    coerceCaught ((pyFloat v).map (fun f => PyVal.float f))
  else if colType = "date" then
    match v with
    | .str s =>
      match parseDateStr s with
      | some d => .ok (.date d)
      | Option.none => .ok .none
    | _ => .ok v
  else if listIsInfixB "timestamp".data colType.data then
    match v with
    | .str s =>
      match parseTimestampStr s with
      | some d => .ok (.datetime d)
      | Option.none => .ok .none
    | _ => .ok v
  else .ok v

/-- A parsed DataFrame: header column names plus rows of cells, each row
aligned positionally with `columns`. -/
structure DFrame where
  columns : List String
  rows : List (List PyVal)
deriving Repr

/-- `row[dfCol]`: the cell of `row` under the header name `dfCol`.  The
call sites only look up names that were matched against `columns`, so
the default branch is unreachable there. -/
def getCell (columns : List String) (row : List PyVal) (dfCol : String) : PyVal :=
  match columns.indexOf? dfCol with
  | some i => row.getD i PyVal.none
  | Option.none => PyVal.none

/-- Header cleaning at source line 300:
`col.strip().replace('﻿', '')`. -/
def cleanCol (s : String) : String :=
  String.mk ((trimChars s.data).filter (fun c => c ≠ '﻿'))

/-- First case-insensitive match of `dbCol` among the DataFrame headers
(source lines 150-154: scan in header order, first match wins). -/
def findMatch (dfColumns : List String) (dbCol : String) : Option String :=
  dfColumns.find? (fun dfCol => caseInsensitiveEq dfCol dbCol)

/-- The Column Missing warning text of source line 163. -/
def columnMissingWarning (dbCol : String) : String :=
  "Column " ++ dbCol ++ " not found in CSV"

/-- The column-matching loop of source lines 146-163.  Returns the
computed mapping (database column, matched header or `Option.none` for
the synthetic `loaded_at` column) together with the warnings emitted, in
order. -/
def matchColumns (dbColumns : List String) (dfColumns : List String) :
    List (String × Option String) × List String :=
  match dbColumns with
  | [] => ([], [])
  | dbCol :: rest =>
    let mw := matchColumns rest dfColumns
    match findMatch dfColumns dbCol with
    | some dfCol => ((dbCol, some dfCol) :: mw.1, mw.2)
    | Option.none =>
      if dbCol = "loaded_at" then ((dbCol, Option.none) :: mw.1, mw.2)
      else (mw.1, columnMissingWarning dbCol :: mw.2)

/-- One database round trip recorded in the trace. -/
inductive Event where
  | createPool
  | closePool
  | truncate (table : String) (ok : Bool)
  | schemaQuery (table : String)
  | prepareStmt (table : String) (query : String)
  | execBatch (table : String) (data : List (List PyVal)) (ok : Bool)
deriving DecidableEq, Repr

/-- The mutable state of one run: the logical clock backing
`datetime.now()`, the per-run prepared-statement execution counter
(used to index the failure oracle), the database event trace, and the
fields of the `ImportResult` object. -/
structure RunState where
  clock : Nat
  stmts : Nat
  events : List Event
  startTime : Nat
  endTime : Option Nat
  status : String
  downloadedFiles : List String
  processedFiles : List (String × Nat)
  errors : List String
  logMessages : List String
deriving Repr

/-- `datetime.now()`: returns the current tick and advances the clock. -/
def nowTick (st : RunState) : Nat × RunState :=
  (st.clock, { st with clock := st.clock + 1 })

/-- `ImportResult.log` (source lines 47-59): timestamp the message,
append it to `log_messages`, and additionally append the bare message to
`errors` when the level is `"ERROR"`. -/
def logMsg (level msg : String) (st : RunState) : RunState :=
  let (t, st) := nowTick st
  { st with
    logMessages := st.logMessages ++ [toString t ++ " - " ++ level ++ " - " ++ msg]
    errors := if level = "ERROR" then st.errors ++ [msg] else st.errors }

/-- Record one database round trip at the end of the trace. -/
def emitEvent (e : Event) (st : RunState) : RunState :=
  { st with events := st.events ++ [e] }

/-- `ImportResult.complete` (source lines 61-64). -/
def completeRun (success : Bool) (st : RunState) : RunState :=
  let (t, st) := nowTick st
  { st with endTime := some t, status := if success then "success" else "failed" }

@[simp] theorem nowTick_fst (st : RunState) : (nowTick st).1 = st.clock := rfl

@[simp] theorem nowTick_snd_events (st : RunState) : (nowTick st).2.events = st.events := rfl

@[simp] theorem logMsg_events (l m : String) (st : RunState) :
    (logMsg l m st).events = st.events := rfl

@[simp] theorem logMsg_stmts (l m : String) (st : RunState) :
    (logMsg l m st).stmts = st.stmts := rfl

@[simp] theorem logMsg_status (l m : String) (st : RunState) :
    (logMsg l m st).status = st.status := rfl

@[simp] theorem logMsg_processedFiles (l m : String) (st : RunState) :
    (logMsg l m st).processedFiles = st.processedFiles := rfl

@[simp] theorem logMsg_downloadedFiles (l m : String) (st : RunState) :
    (logMsg l m st).downloadedFiles = st.downloadedFiles := rfl

@[simp] theorem logMsg_errors (l m : String) (st : RunState) :
    (logMsg l m st).errors = if l = "ERROR" then st.errors ++ [m] else st.errors := rfl

@[simp] theorem emitEvent_events (e : Event) (st : RunState) :
    (emitEvent e st).events = st.events ++ [e] := rfl

@[simp] theorem emitEvent_stmts (e : Event) (st : RunState) :
    (emitEvent e st).stmts = st.stmts := rfl

@[simp] theorem emitEvent_status (e : Event) (st : RunState) :
    (emitEvent e st).status = st.status := rfl

@[simp] theorem emitEvent_errors (e : Event) (st : RunState) :
    (emitEvent e st).errors = st.errors := rfl

@[simp] theorem emitEvent_processedFiles (e : Event) (st : RunState) :
    (emitEvent e st).processedFiles = st.processedFiles := rfl

@[simp] theorem emitEvent_downloadedFiles (e : Event) (st : RunState) :
    (emitEvent e st).downloadedFiles = st.downloadedFiles := rfl

@[simp] theorem completeRun_events (b : Bool) (st : RunState) :
    (completeRun b st).events = st.events := rfl

@[simp] theorem completeRun_status (b : Bool) (st : RunState) :
    (completeRun b st).status = if b then "success" else "failed" := rfl

@[simp] theorem completeRun_errors (b : Bool) (st : RunState) :
    (completeRun b st).errors = st.errors := rfl

@[simp] theorem completeRun_processedFiles (b : Bool) (st : RunState) :
    (completeRun b st).processedFiles = st.processedFiles := rfl

@[simp] theorem completeRun_downloadedFiles (b : Bool) (st : RunState) :
    (completeRun b st).downloadedFiles = st.downloadedFiles := rfl

/-- `next(schema_col[1] for schema_col in schema if schema_col[0] == db_col)`
(source line 197).  Call sites only pass database columns drawn from the
schema, so the fallback is unreachable there. -/
def colTypeOf (schema : List (String × String)) (dbCol : String) : String :=
  match schema.find? (fun sc => sc.1 = dbCol) with
  | some sc => sc.2
  | Option.none => ""

/-- One loop body iteration of source lines 195-248: the value appended
for one mapped column of one row, or the uncaught exception it raises.
A mapped `loaded_at` column with no CSV counterpart receives the
timestamp captured at `tick` (source lines 200-202); otherwise the cell
(or `None` for an unmatched column) is passed through `coerceValue`. -/
def cellForE (schema : List (String × String)) (tick : Nat) (columns : List String)
    (row : List PyVal) (pair : String × Option String) : Except PyErr PyVal :=
  let colType := colTypeOf schema pair.1
  if pair.1 = "loaded_at" ∧ pair.2 = Option.none then
    .ok (.datetime (.clock tick))
  else
    let value := match pair.2 with
      | some dfCol => getCell columns row dfCol
      | Option.none => PyVal.none
    coerceValue colType value

/-- The full row loop of source lines 194-250: one appended value per
mapped column, aborted by the first uncaught exception. -/
def buildRowE (schema : List (String × String)) (tick : Nat) (columns : List String)
    (row : List PyVal) : List (String × Option String) → Except PyErr (List PyVal)
  | [] => .ok []
  | pair :: rest =>
    match cellForE schema tick columns row pair with
    | .error e => .error e
    | .ok v =>
      match buildRowE schema tick columns row rest with
      | .error e => .error e
      | .ok vs => .ok (v :: vs)

/-- Building `batch_data` for one batch of rows (source lines 190-250):
one tuple per row, aborted by the first uncaught exception. -/
def batchRowsE (matched : List (String × Option String)) (schema : List (String × String))
    (tick : Nat) (columns : List String) : List (List PyVal) → Except PyErr (List (List PyVal))
  | [] => .ok []
  | row :: rest =>
    match buildRowE schema tick columns row matched with
    | .error e => .error e
    | .ok t =>
      match batchRowsE matched schema tick columns rest with
      | .error e => .error e
      | .ok ts => .ok (t :: ts)

/-- Fuel-driven slicing loop; the fuel is an upper bound on the list
length, making the recursion structural. -/
def chunksOfF (k : Nat) : Nat → List α → List (List α)
  | _, [] => []
  | 0, _ :: _ => []
  | fuel + 1, x :: rest => (x :: rest.take (k - 1)) :: chunksOfF k fuel (rest.drop (k - 1))

/-- The slicing `for start in range(0, n, k): xs[start:start+k]`.  For
`k = 0` Python's `range` would raise; all call sites use positive sizes. -/
def chunksOf (k : Nat) (xs : List α) : List (List α) :=
  chunksOfF k xs.length xs

/-- The slicing result does not depend on the fuel, given enough of it. -/
theorem chunksOfF_congr (k : Nat) :
    ∀ (f1 f2 : Nat) (xs : List α), xs.length ≤ f1 → xs.length ≤ f2 →
      chunksOfF k f1 xs = chunksOfF k f2 xs := by
  intro f1
  induction f1 with
  | zero =>
    intro f2 xs h1 _
    have hx : xs = [] := List.eq_nil_of_length_eq_zero (Nat.le_zero.mp h1)
    subst hx
    cases f2 <;> simp [chunksOfF]
  | succ f ih =>
    intro f2 xs h1 h2
    cases xs with
    | nil => cases f2 <;> simp [chunksOfF]
    | cons x rest =>
      cases f2 with
      | zero => simp at h2
      | succ f2 =>
        simp only [chunksOfF]
        congr 1
        apply ih
        · simp only [List.length_drop]
          simp only [List.length_cons] at h1
          omega
        · simp only [List.length_drop]
          simp only [List.length_cons] at h2
          omega

/-- One step of the slicing loop. -/
theorem chunksOf_cons (k : Nat) (x : α) (rest : List α) :
    chunksOf k (x :: rest) = (x :: rest.take (k - 1)) :: chunksOf k (rest.drop (k - 1)) := by
  unfold chunksOf
  simp only [List.length_cons, chunksOfF]
  congr 1
  apply chunksOfF_congr
  · simp only [List.length_drop]; omega
  · exact Nat.le_refl _

/-- Sum of the sizes of the batches whose prepared-statement execution
succeeds, when consecutive executions consume oracle indices starting at
`k` (one index per `executemany` call). -/
def successSum (fail : Nat → Option String) : Nat → List (List α) → Nat
  | _, [] => 0
  | k, b :: bs =>
    (match fail k with | Option.none => b.length | some _ => 0) + successSum fail (k + 1) bs

/-- The error messages recorded for failed batch executions, in order
(source line 259). -/
def failMsgs (fail : Nat → Option String) : Nat → List (List α) → List String
  | _, [] => []
  | k, b :: bs =>
    let _ := b
    match fail k with
    | Option.none => failMsgs fail (k + 1) bs
    | some e => ("Error inserting batch: " ++ e) :: failMsgs fail (k + 1) bs

/-- The batch loop of source lines 188-260.  `fail` is the oracle giving
each `executemany` call's outcome (`Option.none` = success, `some e` =
the exception's text); the run state's `stmts` counter indexes it.  On
success the batch size is added to the running count and an INFO line is
logged; on failure the error is recorded and the loop continues.  An
uncaught coercion exception while building a batch aborts the loop. -/
def runBatches (fail : Nat → Option String) (matched : List (String × Option String))
    (schema : List (String × String)) (tick : Nat) (columns : List String)
    (tableName : String) (startIdx total inserted : Nat) (st : RunState) :
    List (List (List PyVal)) → Except PyErr Nat × RunState
  | [] => (.ok inserted, st)
  | b :: bs =>
    let endIdx := min (startIdx + 1000) total
    match batchRowsE matched schema tick columns b with
    | .error e => (.error e, st)
    | .ok batchData =>
      if batchData.isEmpty then
        runBatches fail matched schema tick columns tableName (startIdx + 1000) total
          inserted st bs
      else
        let k := st.stmts
        let st := { st with stmts := k + 1 }
        match fail k with
        | Option.none =>
          let st := emitEvent (.execBatch tableName batchData true) st
          let st := logMsg "INFO"
            ("Inserted batch " ++ toString startIdx ++ "-" ++ toString endIdx ++ " of "
              ++ toString total ++ " rows") st
          runBatches fail matched schema tick columns tableName (startIdx + 1000) total
            (inserted + batchData.length) st bs
        | some e =>
          let st := emitEvent (.execBatch tableName batchData false) st
          let st := logMsg "ERROR" ("Error inserting batch: " ++ e) st
          runBatches fail matched schema tick columns tableName (startIdx + 1000) total
            inserted st bs

/-- The oracles standing for the database, the downloaded files on disk
and the environment configuration. -/
structure Oracles where
  /-- Outcome of the i-th prepared-statement execution of the run. -/
  stmtFail : Nat → Option String
  /-- Result rows of the `information_schema.columns` query per table. -/
  schemaOf : String → List (String × String)
  /-- Whether `TRUNCATE TABLE ...` succeeds for a table. -/
  truncOk : String → Bool
  /-- Parsed content of a downloaded CSV file. -/
  contentOf : String → DFrame
  /-- File size in MB (source line 286). -/
  sizeOf : String → ℚ
  /-- `CHUNK_SIZE` from the environment (default 10000). -/
  chunkSize : Nat

/-- The warnings of the column-matching loop, logged in order (part of
source lines 146-163). -/
def warnedState (df : DFrame) (schema : List (String × String)) (st : RunState) : RunState :=
  (matchColumns (schema.map (fun c => c.1)) df.columns).2.foldl
    (fun s w => logMsg "WARNING" w s) st

/-- The insert statement text built at source lines 170-174. -/
def insertQueryOf (tableName : String) (matched : List (String × Option String)) : String :=
  let dbColsSql := String.intercalate ", " (matched.map (fun c => "\"" ++ c.1 ++ "\""))
  let placeholders := String.intercalate ", "
    ((List.range matched.length).map (fun i => "$" ++ toString (i + 1)))
  "INSERT INTO \"" ++ tableName ++ "\" (" ++ dbColsSql ++ ") VALUES (" ++ placeholders ++ ")"

/-- The state after `conn.prepare(insert_query)` (source line 177). -/
def preparedState (df : DFrame) (tableName : String) (schema : List (String × String))
    (st : RunState) : RunState :=
  emitEvent
    (.prepareStmt tableName
      (insertQueryOf tableName (matchColumns (schema.map (fun c => c.1)) df.columns).1))
    (warnedState df schema st)

/-- `process_dataframe` (source lines 142-263), acting on one DataFrame
(the whole file, or one chunk of a large file).  Returns the inserted
row count, or the uncaught exception escaping the batch loop, together
with the updated state.  `.ok 0` covers the `return False` of the
no-columns-matched branch (Python's `False` is the integer `0`).  The
captured `current_timestamp` of source line 180 is the clock of the
prepared state. -/
def process_dataframe (orc : Oracles) (df : DFrame) (tableName : String)
    (schema : List (String × String)) (st : RunState) : Except PyErr Nat × RunState :=
  let matched := (matchColumns (schema.map (fun c => c.1)) df.columns).1
  if matched.isEmpty then
    (.ok 0, logMsg "ERROR" "No columns matched between CSV and database table"
      (warnedState df schema st))
  else
    let st2 := preparedState df tableName schema st
    let rs := runBatches orc.stmtFail matched schema st2.clock df.columns tableName
      0 df.rows.length 0 (nowTick st2).2 (chunksOf 1000 df.rows)
    match rs.1 with
    | .ok n =>
      (.ok n, logMsg "INFO" ("Inserted " ++ toString n ++ " rows into " ++ tableName) rs.2)
    | .error e => (.error e, rs.2)

/-- `get_table_schema` (source lines 125-140): one catalog query plus an
INFO log line.  The result rows come from the schema oracle; an empty
list is what the query returns for a non-existent table. -/
def get_table_schema (orc : Oracles) (tableName : String) (st : RunState) :
    List (String × String) × RunState :=
  let st := emitEvent (.schemaQuery tableName) st
  let schema := orc.schemaOf tableName
  (schema, logMsg "INFO" ("Schema for " ++ tableName) st)

/-- The chunk loop of source lines 310-317: slice the DataFrame into
`CHUNK_SIZE`-row chunks and run `process_dataframe` on each, summing the
returned counts.  An uncaught exception aborts the loop. -/
def runChunks (orc : Oracles) (columns : List String) (tableName : String)
    (schema : List (String × String)) (startIdx total acc : Nat) (st : RunState) :
    List (List (List PyVal)) → Except PyErr Nat × RunState
  | [] => (.ok acc, st)
  | c :: cs =>
    let endIdx := min (startIdx + orc.chunkSize) total
    let st := logMsg "INFO"
      ("Processing chunk (rows " ++ toString startIdx ++ "-" ++ toString endIdx ++ ")") st
    let rs := process_dataframe orc { columns := columns, rows := c } tableName schema st
    match rs.1 with
    | .ok n =>
      runChunks orc columns tableName schema (startIdx + orc.chunkSize) total (acc + n) rs.2 cs
    | .error e => (.error e, rs.2)

/-- Header cleaning applied to a freshly read DataFrame (source line
300). -/
def cleanedDF (df0 : DFrame) : DFrame :=
  { columns := df0.columns.map cleanCol, rows := df0.rows }

/-- The state after the best-effort truncate of source lines 270-275:
two INFO lines, the `TRUNCATE TABLE` round trip, and a warning when it
fails. -/
def truncatedState (orc : Oracles) (csvFile tableName : String) (st : RunState) : RunState :=
  let st1 := logMsg "INFO" ("Truncating table " ++ tableName ++ "...")
    (logMsg "INFO" ("Processing " ++ csvFile ++ " into table " ++ tableName ++ "...") st)
  let st2 := emitEvent (.truncate tableName (orc.truncOk tableName)) st1
  if orc.truncOk tableName then st2 else logMsg "WARNING" "Could not truncate table" st2

/-- The state after the schema fetch of source line 278. -/
def schemaState (orc : Oracles) (csvFile tableName : String) (st : RunState) : RunState :=
  (get_table_schema orc tableName (truncatedState orc csvFile tableName st)).2

/-- The state after the file-size INFO line of source line 288. -/
def readState (orc : Oracles) (csvFile tableName : String) (st : RunState) : RunState :=
  logMsg "INFO" ("Reading CSV file " ++ csvFile) (schemaState orc csvFile tableName st)

/-- `import_data` (source lines 265-329): truncate (best effort), fetch
the schema (an empty result aborts this file with count 0), read and
clean the DataFrame, then either chunked or whole-file processing; the
`try/except` of lines 283-329 converts an uncaught processing exception
into two ERROR log lines and a count of 0.  (Connection acquisition and
the encoding-fallback reads are I/O without modelled failure modes; the
schema value returned by `get_table_schema` is, by definition, the
schema oracle's answer.) -/
def import_data (orc : Oracles) (csvFile tableName : String) (st : RunState) :
    Nat × RunState :=
  let schema := orc.schemaOf tableName
  if schema.isEmpty then
    (0, logMsg "ERROR" ("Could not retrieve schema for table " ++ tableName)
      (schemaState orc csvFile tableName st))
  else
    let df := cleanedDF (orc.contentOf csvFile)
    let rs :=
      if 10 < orc.sizeOf csvFile then
        runChunks orc df.columns tableName schema 0 df.rows.length 0
          (logMsg "INFO" "Large file detected, processing in chunks"
            (readState orc csvFile tableName st))
          (chunksOf orc.chunkSize df.rows)
      else
        process_dataframe orc df tableName schema (readState orc csvFile tableName st)
    match rs.1 with
    | .ok n => (n, logMsg "INFO" ("Completed import of " ++ csvFile) rs.2)
    | .error _ =>
      (0, logMsg "ERROR" "traceback"
        (logMsg "ERROR" ("Error processing " ++ csvFile) rs.2))

/-- Outcomes of the SFTP transport operations of one retrieval (source
lines 88-119): session open, directory change, listing, and per-file
download.  A `false`/`Option.none` stands for the operation raising. -/
structure Transport where
  connectOk : Bool
  chdirOk : Bool
  listing : Option (List String)
  downloadOk : String → Bool

/-- The file list `download_files` returns, as a function of the
transport outcomes alone: the `.csv`-filtered listing when every
operation succeeds, and `[]` when any operation raises (the single
`except` of line 121). -/
def retrievedFiles (tr : Transport) : List String :=
  if tr.connectOk then
    if tr.chdirOk then
      match tr.listing with
      | some entries =>
        let files := entries.filter (fun f => strEndsWith f ".csv")
        if files.all tr.downloadOk then files else []
      | Option.none => []
    else []
  else []

/-- `download_files` (source lines 85-123).  Any transport failure lands
in the `except` handler: one ERROR line, return `[]`; on success the
file list is stored in `downloaded_files` and returned.  (The exception
text interpolated into the message is not modelled.) -/
def download_files (tr : Transport) (st : RunState) : List String × RunState :=
  let st := logMsg "INFO" "Downloading files from SFTP server..." st
  if tr.connectOk then
    if tr.chdirOk then
      match tr.listing with
      | some entries =>
        let files := entries.filter (fun f => strEndsWith f ".csv")
        let st := if files.length ≠ 3 then
            logMsg "WARNING" ("Expected exactly 3 files, but found " ++ toString files.length) st
          else st
        let st := logMsg "INFO" ("Found files: " ++ String.intercalate ", " files) st
        if files.all tr.downloadOk then
          let st := logMsg "INFO"
            ("Successfully downloaded " ++ toString files.length ++ " files") st
          (files, { st with downloadedFiles := files })
        else
          (([] : List String), logMsg "ERROR" "Error downloading files" st)
      | Option.none => (([] : List String), logMsg "ERROR" "Error downloading files" st)
    else (([] : List String), logMsg "ERROR" "Error downloading files" st)
  else (([] : List String), logMsg "ERROR" "Error downloading files" st)

/-- `os.path.splitext(f)[0]`: the file name with its last extension
stripped. -/
def splitExtStem (s : String) : String :=
  if s.data.contains '.' then
    String.mk (((s.data.reverse.dropWhile (fun c => c ≠ '.')).drop 1).reverse)
  else s

/-- The per-file loop of `run_import` (source lines 353-357): derive the
table name, import the file, and append `(file, row count)` to
`processed_files`. -/
def runFiles (orc : Oracles) (st : RunState) : List String → RunState
  | [] => st
  | csvFile :: rest =>
    let tableName := splitExtStem csvFile
    let r := import_data orc csvFile tableName st
    let st := { r.2 with processedFiles := r.2.processedFiles ++ [(csvFile, r.1)] }
    runFiles orc st rest

/-- The two cleanup log lines of the `finally` block (source lines
370-391); the filesystem removal itself is modelled as succeeding. -/
def cleanupLogs (st : RunState) : RunState :=
  let st := logMsg "INFO" "Cleaning up temporary directory..." st
  logMsg "INFO" "Temporary directory cleaned up" st

/-- The state of a fresh `ImportResult` (source lines 37-45):
`start_time = datetime.now()` consumes tick 0, status `running`, all
lists empty. -/
def initialRunState : RunState :=
  { clock := 1, stmts := 0, events := [], startTime := 0, endTime := Option.none,
    status := "running", downloadedFiles := [], processedFiles := [], errors := [],
    logMessages := [] }

/-- `run_import` (source lines 331-393): retrieval, then either the
failed exit (no files) or pool creation, the sequential per-file loop,
pool close and the successful exit; the `finally` cleanup runs on both
paths. -/
def run_import (tr : Transport) (orc : Oracles) : RunState :=
  let st := initialRunState
  let st := logMsg "INFO" "Starting CSV import process..." st
  let st := logMsg "INFO" "Created temporary directory" st
  let dl := download_files tr st
  let files := dl.1
  let st := dl.2
  if files.isEmpty then
    let st := logMsg "ERROR" "No files were downloaded. Exiting." st
    let st := completeRun false st
    cleanupLogs st
  else
    let st := logMsg "INFO" "Creating database connection pool..." st
    let st := emitEvent .createPool st
    let st := runFiles orc st files
    let st := emitEvent .closePool st
    let st := logMsg "INFO" "All imports completed!" st
    let st := completeRun true st
    cleanupLogs st

/-- `xs[-n:]` for a list (the slice at source line 81). -/
def pySliceLast (n : Nat) (xs : List α) : List α :=
  xs.drop (xs.length - n)

/-- The dictionary built by `ImportResult.to_dict` (source lines 66-82). -/
structure RunDict where
  status : String
  startTime : Nat
  endTime : Option Nat
  durationSeconds : Option Int
  downloadedFiles : List String
  processedFiles : List (String × Nat)
  errors : List String
  rowCounts : List (String × Nat)
  logMessages : List String
deriving Repr

/-- `ImportResult.to_dict` (source lines 66-82).  `row_counts` is the
dict comprehension over `processed_files` (file names are unique within
a run, coming from one directory listing); `log_messages` is the full
list, capped to its last 100 entries when longer. -/
def to_dict (st : RunState) : RunDict :=
  { status := st.status
    startTime := st.startTime
    endTime := st.endTime
    durationSeconds := st.endTime.map (fun e => (e : Int) - (st.startTime : Int))
    downloadedFiles := st.downloadedFiles
    processedFiles := st.processedFiles
    errors := st.errors
    rowCounts := st.processedFiles
    logMessages :=
      if st.logMessages.length > 100 then pySliceLast 100 st.logMessages
      else st.logMessages }

/-- Whether an event is a `TRUNCATE TABLE` statement. -/
def Event.isTruncate : Event → Bool
  | .truncate _ _ => true
  | _ => false

/-- The parameter tuples carried by an event (empty for non-insert
events). -/
def Event.tupleData : Event → List (List PyVal)
  | .execBatch _ data _ => data
  | _ => []

/-- All parameter tuples sent by the insert statements of a trace. -/
def execTuples (es : List Event) : List (List PyVal) :=
  (es.map Event.tupleData).flatten

/-- The ticks of all clock-produced timestamps in one parameter tuple. -/
def tupleClockStamps : List PyVal → List Nat
  | [] => []
  | .datetime (.clock t) :: rest => t :: tupleClockStamps rest
  | _ :: rest => tupleClockStamps rest

/-- The ticks of all clock-produced timestamps sent by the insert
statements of a trace: the observable `loaded_at` values. -/
def clockStamps (es : List Event) : List Nat :=
  ((execTuples es).map tupleClockStamps).flatten

/-- The cell shapes `pd.read_csv` can produce (missing, string, integer
or float — never a `date`/`datetime` object, in particular never a
clock-produced timestamp). -/
def isCSVCell : PyVal → Bool
  | .none => true
  | .str _ => true
  | .int _ => true
  | .float _ => true
  | _ => false

/-- All cells of a row list are CSV-shaped. -/
def rowsCSVShaped (rows : List (List PyVal)) : Bool :=
  rows.all (fun r => r.all isCSVCell)

/-- A cell holding an infinite float (the one value on which an
integer-family coercion raises an uncaught exception). -/
def isInfCell : PyVal → Bool
  | .float (.inf _) => true
  | _ => false

/-- No cell of the row list is an infinite float. -/
def noInfCells (rows : List (List PyVal)) : Bool :=
  rows.all (fun r => r.all (fun c => !isInfCell c))


/-- `columnMissingWarning` is injective in the column name. -/
theorem columnMissingWarning_inj {a b : String}
    (h : columnMissingWarning a = columnMissingWarning b) : a = b := by
  have hd : ("Column ".data ++ a.data) ++ " not found in CSV".data
      = ("Column ".data ++ b.data) ++ " not found in CSV".data := by
    have := congrArg String.data h
    simpa [columnMissingWarning, String.data_append] using this
  have h1 := List.append_cancel_right hd
  have h2 := List.append_cancel_left h1
  cases a; cases b
  exact congrArg String.mk h2

/-- A declared column whose name never matches is excluded from the
mapping, unless it is `loaded_at`. -/
theorem matchColumns_excluded {dfCols : List String} {c : String}
    (hno : ∀ d ∈ dfCols, caseInsensitiveEq d c = false) (hl : c ≠ "loaded_at") :
    ∀ dbCols o, (c, o) ∉ (matchColumns dbCols dfCols).1 := by
  intro dbCols
  induction dbCols with
  | nil => intro o h; simp [matchColumns] at h
  | cons d rest ih =>
    intro o h
    rw [matchColumns] at h
    rcases hf : findMatch dfCols d with _ | m <;> rw [hf] at h
    · by_cases hld : d = "loaded_at"
      · simp only [if_pos hld, List.mem_cons, Prod.mk.injEq] at h
        rcases h with ⟨rfl, _⟩ | h
        · exact hl hld
        · exact ih o h
      · simp only [if_neg hld] at h
        exact ih o h
    · simp only [List.mem_cons, Prod.mk.injEq] at h
      rcases h with ⟨rfl, _⟩ | h
      · have hm : m ∈ dfCols := List.mem_of_find?_eq_some hf
        have hlow := List.find?_some hf
        rw [hno m hm] at hlow
        exact Bool.false_ne_true hlow
      · exact ih o h

/-- A declared non-`loaded_at` column with no match produces a Column
Missing warning. -/
theorem matchColumns_warning {dfCols : List String} {c : String}
    (hno : findMatch dfCols c = Option.none) (hl : c ≠ "loaded_at") :
    ∀ dbCols, c ∈ dbCols → columnMissingWarning c ∈ (matchColumns dbCols dfCols).2 := by
  intro dbCols
  induction dbCols with
  | nil => intro h; simp at h
  | cons d rest ih =>
    intro hmem
    rw [matchColumns]
    rcases List.mem_cons.mp hmem with rfl | hmem
    · rw [hno]
      simp only [if_neg hl]
      exact List.mem_cons_self _ _
    · rcases hf : findMatch dfCols d with _ | m
      · by_cases hld : d = "loaded_at"
        · simpa [if_pos hld] using ih hmem
        · simp only [if_neg hld]
          exact List.mem_cons_of_mem _ (ih hmem)
      · simpa using ih hmem

/-- An unmatched `loaded_at` column is included with a null source. -/
theorem matchColumns_loaded_at {dfCols : List String}
    (hno : findMatch dfCols "loaded_at" = Option.none) :
    ∀ dbCols, "loaded_at" ∈ dbCols →
      (("loaded_at", (Option.none : Option String)) ∈ (matchColumns dbCols dfCols).1) := by
  intro dbCols
  induction dbCols with
  | nil => intro h; simp at h
  | cons d rest ih =>
    intro hmem
    rw [matchColumns]
    rcases List.mem_cons.mp hmem with rfl | hmem
    · rw [hno]
      simp only [if_pos rfl]
      exact List.mem_cons_self _ _
    · rcases hf : findMatch dfCols d with _ | m
      · by_cases hld : d = "loaded_at"
        · simp only [if_pos hld]
          exact List.mem_cons_of_mem _ (ih hmem)
        · simp only [if_neg hld]
          exact ih hmem
      · exact List.mem_cons_of_mem _ (ih hmem)

/-- No Column Missing warning for `loaded_at` is ever emitted. -/
theorem matchColumns_no_loaded_at_warning (dbCols dfCols : List String) :
    columnMissingWarning "loaded_at" ∉ (matchColumns dbCols dfCols).2 := by
  induction dbCols with
  | nil => simp [matchColumns]
  | cons d rest ih =>
    rw [matchColumns]
    rcases hf : findMatch dfCols d with _ | m
    · by_cases hld : d = "loaded_at"
      · simpa [if_pos hld] using ih
      · simp only [if_neg hld, List.mem_cons]
        rintro (h | h)
        · exact hld (columnMissingWarning_inj h).symm
        · exact ih h
    · simpa using ih

/-- C4: a declared schema column with no case-insensitive match among
the source headers gets a Column Missing warning and is excluded from
the computed mapping, except the reserved `loaded_at` column, which is
included with a null source reference and produces no warning. -/
theorem c4_unmatched_columns (dbCols dfCols : List String) (c : String)
    (hmem : c ∈ dbCols) (hno : ∀ d ∈ dfCols, caseInsensitiveEq d c = false) :
    (c ≠ "loaded_at" →
      columnMissingWarning c ∈ (matchColumns dbCols dfCols).2 ∧
      ∀ o, (c, o) ∉ (matchColumns dbCols dfCols).1) ∧
    (c = "loaded_at" →
      (c, (Option.none : Option String)) ∈ (matchColumns dbCols dfCols).1 ∧
      columnMissingWarning c ∉ (matchColumns dbCols dfCols).2) := by
  have hfind : findMatch dfCols c = Option.none := by
    rw [findMatch, List.find?_eq_none]
    intro d hd
    simp [hno d hd]
  constructor
  · intro hl
    exact ⟨matchColumns_warning hfind hl dbCols hmem, matchColumns_excluded hno hl dbCols⟩
  · intro hl
    subst hl
    exact ⟨matchColumns_loaded_at hfind dbCols hmem,
      matchColumns_no_loaded_at_warning dbCols dfCols⟩

/-- Witness for C4 at a concrete input: schema columns `a, loaded_at`,
source header `b`. -/
theorem c4_unmatched_columns_witness :
    ("a" ∈ ["a", "loaded_at"] ∧ ∀ d ∈ ["b"], caseInsensitiveEq d "a" = false) ∧
    columnMissingWarning "a" ∈ (matchColumns ["a", "loaded_at"] ["b"]).2 ∧
    ("loaded_at", (Option.none : Option String)) ∈ (matchColumns ["a", "loaded_at"] ["b"]).1 := by
  refine ⟨⟨by decide, by decide⟩, ?_, ?_⟩
  · exact ((c4_unmatched_columns ["a", "loaded_at"] ["b"] "a" (by decide) (by decide)).1
      (by decide)).1
  · exact ((c4_unmatched_columns ["a", "loaded_at"] ["b"] "loaded_at" (by decide)
      (by decide)).2 rfl).1

/-- C2 fails on the code: coercing a float-infinity cell (which pandas
produces for CSV text like `inf` or `Infinity`) under an integer-family
declared type calls `int(float('inf'))`, which raises `OverflowError`;
the `except (ValueError, TypeError)` at source line 214 does not catch
it, so the exception propagates instead of degrading to null.  Ordinary
parse failures (second and third conjuncts) do degrade to null as the
claim says. -/
theorem c2_integer_coercion_of_infinity_raises :
    coerceValue "integer" (.float (.inf false)) = .error .overflowError ∧
    coerceValue "integer" (.str "abc") = .ok .none ∧
    coerceValue "numeric" (.str "N/A") = .ok .none :=
  ⟨rfl, rfl, rfl⟩

/-- C10: the externally serialized log list is the suffix of the
in-memory log list of length `min 100 (length)`: all lines when at most
100 were recorded, exactly the last 100 otherwise, order preserved; the
in-memory list itself is returned untouched by serialization (the
serialized list is a suffix of it). -/
theorem c10_serialized_log_lines (st : RunState) :
    (to_dict st).logMessages <:+ st.logMessages ∧
    (to_dict st).logMessages.length = min 100 st.logMessages.length ∧
    (st.logMessages.length ≤ 100 → (to_dict st).logMessages = st.logMessages) ∧
    (st.logMessages.length > 100 →
      (to_dict st).logMessages = st.logMessages.drop (st.logMessages.length - 100)) := by
  have hL : (to_dict st).logMessages
      = if st.logMessages.length > 100 then pySliceLast 100 st.logMessages
        else st.logMessages := rfl
  by_cases h : st.logMessages.length > 100
  · rw [hL, if_pos h]
    refine ⟨List.drop_suffix _ _, ?_, fun h' => absurd h' (by omega), fun _ => rfl⟩
    simp only [pySliceLast, List.length_drop]
    omega
  · rw [hL, if_neg h]
    exact ⟨List.suffix_refl _, by omega, fun _ => rfl, fun h' => absurd h' h⟩

/-- Witness for C10 at a concrete state (the fresh run state, whose log
list is empty, hence within the 100-line cap). -/
theorem c10_serialized_log_lines_witness :
    initialRunState.logMessages.length ≤ 100 ∧
    (to_dict initialRunState).logMessages = initialRunState.logMessages :=
  ⟨by decide, (c10_serialized_log_lines initialRunState).2.2.1 (by decide)⟩

@[simp] theorem cleanupLogs_events (st : RunState) : (cleanupLogs st).events = st.events := rfl

@[simp] theorem cleanupLogs_status (st : RunState) : (cleanupLogs st).status = st.status := rfl

@[simp] theorem cleanupLogs_errors (st : RunState) : (cleanupLogs st).errors = st.errors := rfl

@[simp] theorem cleanupLogs_processedFiles (st : RunState) :
    (cleanupLogs st).processedFiles = st.processedFiles := rfl

@[simp] theorem cleanupLogs_downloadedFiles (st : RunState) :
    (cleanupLogs st).downloadedFiles = st.downloadedFiles := rfl

/-- The returned file list of `download_files` depends only on the
transport outcomes, not on the incoming state. -/
theorem download_files_fst (tr : Transport) (st : RunState) :
    (download_files tr st).1 = retrievedFiles tr := by
  rcases tr with ⟨c, ch, ls, dl⟩
  cases c <;> cases ch <;> rcases ls with _ | entries <;>
    simp only [download_files, retrievedFiles] <;> split_ifs <;> rfl

/-- `download_files` performs no database operation. -/
theorem download_files_events (tr : Transport) (st : RunState) :
    (download_files tr st).2.events = st.events := by
  rcases tr with ⟨c, ch, ls, dl⟩
  cases c <;> cases ch <;> rcases ls with _ | entries <;>
    simp only [download_files] <;> split_ifs <;> rfl

/-- `download_files` leaves `processed_files` untouched. -/
theorem download_files_processedFiles (tr : Transport) (st : RunState) :
    (download_files tr st).2.processedFiles = st.processedFiles := by
  rcases tr with ⟨c, ch, ls, dl⟩
  cases c <;> cases ch <;> rcases ls with _ | entries <;>
    simp only [download_files] <;> split_ifs <;> rfl

/-- When the retrieval yields a non-empty list, that list is recorded in
`downloaded_files`. -/
theorem download_files_downloadedFiles_of_ne (tr : Transport) (st : RunState)
    (h : retrievedFiles tr ≠ []) :
    (download_files tr st).2.downloadedFiles = retrievedFiles tr := by
  rcases tr with ⟨c, ch, ls, dl⟩
  cases c <;> cases ch <;> rcases ls with _ | entries <;>
      simp only [download_files, retrievedFiles] at h ⊢ <;> split_ifs at h ⊢ <;>
      simp_all

/-- A transport-level failure at any stage of the retrieval. -/
def transportFails (tr : Transport) : Prop :=
  tr.connectOk = false ∨ tr.chdirOk = false ∨ tr.listing = Option.none ∨
    ∃ f ∈ (tr.listing.getD []).filter (fun f => strEndsWith f ".csv"),
      tr.downloadOk f = false

/-- C7: any transport-level failure (session open, directory change,
listing, or any download) aborts the whole retrieval: the returned file
list is empty, the failure is recorded as an error, and no partial
download set leaks into `downloaded_files`. -/
theorem c7_transport_failure_aborts (tr : Transport) (st : RunState)
    (h : transportFails tr) :
    (download_files tr st).1 = [] ∧
    "Error downloading files" ∈ (download_files tr st).2.errors ∧
    (download_files tr st).2.downloadedFiles = st.downloadedFiles := by
  rcases tr with ⟨c, ch, ls, dl⟩
  cases c with
  | false =>
    refine ⟨rfl, ?_, rfl⟩
    simp [download_files, logMsg, nowTick]
  | true =>
    cases ch with
    | false =>
      refine ⟨rfl, ?_, rfl⟩
      simp [download_files, logMsg, nowTick]
    | true =>
      rcases ls with _ | entries
      · refine ⟨rfl, ?_, rfl⟩
        simp [download_files, logMsg, nowTick]
      · rcases h with h | h | h | h
        · exact absurd h (by simp)
        · exact absurd h (by simp)
        · exact absurd h (by simp)
        · rcases h with ⟨f, hf, hdl⟩
          simp only [Option.getD] at hf
          have hall : (entries.filter (fun g => strEndsWith g ".csv")).all dl = false :=
            List.all_eq_false.mpr ⟨f, hf, by
              intro hcon
              have hdl' : dl f = false := hdl
              rw [hcon] at hdl'
              simp at hdl'⟩
          by_cases h3 : (entries.filter (fun g => strEndsWith g ".csv")).length ≠ 3 <;>
            refine ⟨?_, ?_, ?_⟩ <;>
            simp [download_files, hall, h3, logMsg, nowTick]

/-- Witness for C7 at a concrete transport outcome (session open fails). -/
theorem c7_transport_failure_aborts_witness :
    transportFails ⟨false, true, some [], fun _ => true⟩ ∧
    (download_files ⟨false, true, some [], fun _ => true⟩ initialRunState).1 = [] ∧
    "Error downloading files"
      ∈ (download_files ⟨false, true, some [], fun _ => true⟩ initialRunState).2.errors := by
  have h : transportFails ⟨false, true, some ([] : List String), fun _ => true⟩ := Or.inl rfl
  exact ⟨h, (c7_transport_failure_aborts _ initialRunState h).1,
    (c7_transport_failure_aborts _ initialRunState h).2.1⟩

/-- C6: when retrieval yields zero files the run report ends `failed`
and the run performs no database operation at all (the event trace — pool
creation, truncates, schema queries, inserts — stays empty). -/
theorem c6_zero_files_failed_and_no_db (tr : Transport) (orc : Oracles)
    (h : retrievedFiles tr = []) :
    (run_import tr orc).status = "failed" ∧ (run_import tr orc).events = [] := by
  simp [run_import, download_files_fst, h, download_files_events, initialRunState]

/-- Witness for C6: a transport whose listing succeeds but contains no
CSV file. -/
theorem c6_zero_files_failed_and_no_db_witness :
    retrievedFiles ⟨true, true, some [], fun _ => true⟩ = [] ∧
    (run_import ⟨true, true, some [], fun _ => true⟩
      ⟨fun _ => Option.none, fun _ => [], fun _ => true, fun _ => ⟨[], []⟩,
        fun _ => 0, 10000⟩).status = "failed" ∧
    (run_import ⟨true, true, some [], fun _ => true⟩
      ⟨fun _ => Option.none, fun _ => [], fun _ => true, fun _ => ⟨[], []⟩,
        fun _ => 0, 10000⟩).events = [] := by
  have h : retrievedFiles ⟨true, true, some ([] : List String), fun _ => true⟩ = [] := rfl
  exact ⟨h, (c6_zero_files_failed_and_no_db _ _ h).1, (c6_zero_files_failed_and_no_db _ _ h).2⟩

/-- Batches produced by the slicing loop are never empty. -/
theorem chunksOf_mem_ne_nil (k : Nat) (xs : List α) : ∀ b ∈ chunksOf k xs, b ≠ [] := by
  match xs with
  | [] => simp [chunksOf, chunksOfF]
  | x :: rest =>
    intro b hb
    rw [chunksOf_cons] at hb
    rcases List.mem_cons.mp hb with rfl | hb
    · simp
    · exact chunksOf_mem_ne_nil k (rest.drop (k - 1)) b hb
termination_by xs.length
decreasing_by simp only [List.length_cons, List.length_drop]; omega

/-- Every row of a slice is a row of the sliced list. -/
theorem chunksOf_mem_mem (k : Nat) (xs : List α) :
    ∀ b ∈ chunksOf k xs, ∀ r ∈ b, r ∈ xs := by
  match xs with
  | [] => simp [chunksOf, chunksOfF]
  | x :: rest =>
    intro b hb r hr
    rw [chunksOf_cons] at hb
    rcases List.mem_cons.mp hb with rfl | hb
    · rcases List.mem_cons.mp hr with rfl | hr
      · exact List.mem_cons_self _ _
      · exact List.mem_cons_of_mem _ (List.mem_of_mem_take hr)
    · have := chunksOf_mem_mem k (rest.drop (k - 1)) b hb r hr
      exact List.mem_cons_of_mem _ (List.mem_of_mem_drop this)
termination_by xs.length
decreasing_by simp only [List.length_cons, List.length_drop]; omega

/-- Whether a value is a clock-produced timestamp (a value of the
modelled `datetime.now()`). -/
def isClockVal : PyVal → Bool
  | .datetime (.clock _) => true
  | _ => false

/-- The timestamp parser only builds `parts` datetimes, never a
clock-produced value. -/
theorem parseTimestampStr_no_clock {s : String} {d : DateTimeV}
    (hp : parseTimestampStr s = some d) : isClockVal (.datetime d) = false := by
  unfold parseTimestampStr at hp
  repeat' split at hp
  all_goals first
    | (cases hp; rfl)
    | exact Option.noConfusion hp

/-- If the wrapped conversion result is `.ok`, the value is either the
converted one or the null degraded from a caught exception. -/
theorem coerceCaught_map_not_clock {α : Type} (f : α → PyVal)
    (hf : ∀ a, isClockVal (f a) = false) {x : Except PyErr α} {w : PyVal}
    (h : coerceCaught (x.map f) = .ok w) : isClockVal w = false := by
  rcases x with e | a
  · simp only [Except.map] at h
    unfold coerceCaught at h
    cases e
    · cases h; rfl
    · cases h; rfl
    · exact Except.noConfusion h
  · simp only [Except.map] at h
    unfold coerceCaught at h
    cases h
    exact hf a

/-- A wrapped conversion whose only failure modes are caught exceptions
always lands in `.ok`. -/
theorem coerceCaught_map_ok {α : Type} (f : α → PyVal) {x : Except PyErr α}
    (hx : ∀ e, x = .error e → e.caught = true) :
    ∃ w, coerceCaught (x.map f) = .ok w := by
  rcases x with e | a
  · have hc := hx e rfl
    refine ⟨.none, ?_⟩
    simp [Except.map, coerceCaught, hc]
  · exact ⟨f a, rfl⟩

/-- A successful coercion of a CSV-shaped cell never yields a
clock-produced timestamp: parse results are `parts` datetimes and
pass-through returns the (CSV-shaped) input. -/
theorem coerceValue_ok_not_clock {t : String} {v w : PyVal}
    (hv : isCSVCell v = true) (h : coerceValue t v = .ok w) : isClockVal w = false := by
  unfold coerceValue at h
  split_ifs at h with h1 h2 h3 h4 h5
  · cases h; rfl
  · exact coerceCaught_map_not_clock (fun n => PyVal.int n) (fun a => rfl) h
  · exact coerceCaught_map_not_clock (fun f => PyVal.float f) (fun a => rfl) h
  · cases v with
    | str s =>
      dsimp only at h
      rcases hp : parseDateStr s with _ | pd <;> rw [hp] at h <;> cases h <;> rfl
    | none => cases h; rfl
    | int n => cases h; rfl
    | float f => cases h; rfl
    | date pd => cases h; rfl
    | datetime pd => simp [isCSVCell] at hv
  · cases v with
    | str s =>
      dsimp only at h
      rcases hp : parseTimestampStr s with _ | pd <;> rw [hp] at h
      · cases h; rfl
      · cases h; exact parseTimestampStr_no_clock hp
    | none => cases h; rfl
    | int n => cases h; rfl
    | float f => cases h; rfl
    | date pd => cases h; rfl
    | datetime pd => simp [isCSVCell] at hv
  · cases h
    cases v with
    | datetime pd => simp [isCSVCell] at hv
    | none => rfl
    | str s => rfl
    | int n => rfl
    | float f => rfl
    | date pd => rfl

/-- On a cell that is not an infinite float, the coercion never raises
an uncaught exception. -/
theorem coerceValue_ok_of_not_inf {t : String} {v : PyVal}
    (hv : isInfCell v = false) : ∃ w, coerceValue t v = .ok w := by
  unfold coerceValue
  split_ifs with h1 h2 h3 h4 h5
  · exact ⟨.none, rfl⟩
  · refine coerceCaught_map_ok _ (fun e he => ?_)
    cases v with
    | none => cases he; rfl
    | str s =>
      dsimp only [pyInt] at he
      rcases hp : pyIntOfString s with _ | n <;> rw [hp] at he
      · cases he; rfl
      · exact Except.noConfusion he
    | int n => exact Except.noConfusion he
    | float f =>
      cases f with
      | finite q => exact Except.noConfusion he
      | inf neg => simp [isInfCell] at hv
      | nan => cases he; rfl
    | date pd => cases he; rfl
    | datetime pd => cases he; rfl
  · refine coerceCaught_map_ok _ (fun e he => ?_)
    cases v with
    | none => cases he; rfl
    | str s =>
      dsimp only [pyFloat] at he
      rcases hp : pyFloatOfString s with _ | f <;> rw [hp] at he
      · cases he; rfl
      · exact Except.noConfusion he
    | int n => exact Except.noConfusion he
    | float f => exact Except.noConfusion he
    | date pd => cases he; rfl
    | datetime pd => cases he; rfl
  · cases v with
    | str s =>
      dsimp only
      rcases hp : parseDateStr s with _ | pd
      · exact ⟨.none, rfl⟩
      · exact ⟨.date pd, rfl⟩
    | none => exact ⟨_, rfl⟩
    | int n => exact ⟨_, rfl⟩
    | float f => exact ⟨_, rfl⟩
    | date pd => exact ⟨_, rfl⟩
    | datetime pd => exact ⟨_, rfl⟩
  · cases v with
    | str s =>
      dsimp only
      rcases hp : parseTimestampStr s with _ | pd
      · exact ⟨.none, rfl⟩
      · exact ⟨.datetime pd, rfl⟩
    | none => exact ⟨_, rfl⟩
    | int n => exact ⟨_, rfl⟩
    | float f => exact ⟨_, rfl⟩
    | date pd => exact ⟨_, rfl⟩
    | datetime pd => exact ⟨_, rfl⟩
  · exact ⟨v, rfl⟩

/-- A cell looked up in a row satisfying a predicate (that also holds of
the `None` default) satisfies it too. -/
theorem getCell_pred {P : PyVal → Bool} {columns : List String} {row : List PyVal}
    {c : String} (hnone : P PyVal.none = true) (hrow : row.all P = true) :
    P (getCell columns row c) = true := by
  unfold getCell
  rcases h : columns.indexOf? c with _ | i
  · exact hnone
  · rcases hg : row[i]? with _ | a
    · simpa [List.getD, hg] using hnone
    · have ha : a ∈ row := List.getElem?_mem hg
      have := List.all_eq_true.mp hrow a ha
      simpa [List.getD, hg] using this

/-- The value appended for one mapped column is either not a clock
timestamp, or it is exactly the captured tick (the `loaded_at` case). -/
theorem cellForE_ok_stamp {schema : List (String × String)} {tick : Nat}
    {columns : List String} {row : List PyVal} {pair : String × Option String} {w : PyVal}
    (hrow : row.all isCSVCell = true)
    (h : cellForE schema tick columns row pair = .ok w) :
    isClockVal w = false ∨ w = .datetime (.clock tick) := by
  unfold cellForE at h
  split_ifs at h with hl
  · cases h
    right
    rfl
  · left
    rcases pair with ⟨dbCol, dfCol⟩
    cases dfCol with
    | none =>
      refine coerceValue_ok_not_clock ?_ h
      rfl
    | some c =>
      refine coerceValue_ok_not_clock ?_ h
      exact getCell_pred rfl hrow

/-- On a row without infinite-float cells, building one cell value never
raises an uncaught exception. -/
theorem cellForE_ok_of_safe {schema : List (String × String)} {tick : Nat}
    {columns : List String} {row : List PyVal} {pair : String × Option String}
    (hrow : row.all (fun c => !isInfCell c) = true) :
    ∃ w, cellForE schema tick columns row pair = .ok w := by
  unfold cellForE
  split_ifs with hl
  · exact ⟨_, rfl⟩
  · rcases pair with ⟨dbCol, dfCol⟩
    cases dfCol with
    | none => exact coerceValue_ok_of_not_inf rfl
    | some c =>
      apply coerceValue_ok_of_not_inf
      show isInfCell (getCell columns row c) = false
      have := @getCell_pred (fun v => !isInfCell v) columns row c rfl hrow
      simpa using this

/-- A successfully built tuple has exactly one position per mapped
column. -/
theorem buildRowE_ok_length {schema : List (String × String)} {tick : Nat}
    {columns : List String} {row : List PyVal} :
    ∀ {matched : List (String × Option String)} {t : List PyVal},
      buildRowE schema tick columns row matched = .ok t → t.length = matched.length := by
  intro matched
  induction matched with
  | nil => intro t h; cases h; rfl
  | cons p ps ih =>
    intro t h
    rw [buildRowE] at h
    rcases hc : cellForE schema tick columns row p with e | v <;> rw [hc] at h
    · exact Except.noConfusion h
    · rcases hb : buildRowE schema tick columns row ps with e | vs <;> rw [hb] at h
      · exact Except.noConfusion h
      · cases h
        simp [ih hb]

/-- Every clock stamp inside a successfully built tuple is the captured
tick. -/
theorem buildRowE_ok_stamps {schema : List (String × String)} {tick : Nat}
    {columns : List String} {row : List PyVal} (hrow : row.all isCSVCell = true) :
    ∀ {matched : List (String × Option String)} {t : List PyVal},
      buildRowE schema tick columns row matched = .ok t →
      ∀ s ∈ tupleClockStamps t, s = tick := by
  intro matched
  induction matched with
  | nil => intro t h; cases h; intro s hs; simp [tupleClockStamps] at hs
  | cons p ps ih =>
    intro t h
    rw [buildRowE] at h
    rcases hc : cellForE schema tick columns row p with e | v <;> rw [hc] at h
    · exact Except.noConfusion h
    · rcases hb : buildRowE schema tick columns row ps with e | vs <;> rw [hb] at h
      · exact Except.noConfusion h
      · cases h
        intro s hs
        rcases cellForE_ok_stamp hrow hc with hnc | hcl
        · have : tupleClockStamps (v :: vs) = tupleClockStamps vs := by
            cases v with
            | datetime d =>
              cases d with
              | clock t2 => simp [isClockVal] at hnc
              | parts y mo dd hh mi se => rfl
            | none => rfl
            | str s2 => rfl
            | int n => rfl
            | float f => rfl
            | date pd => rfl
          rw [this] at hs
          exact ih hb s hs
        · subst hcl
          rcases List.mem_cons.mp (by simpa [tupleClockStamps] using hs) with rfl | hs'
          · rfl
          · exact ih hb s hs'

/-- On a row without infinite-float cells the whole tuple builds. -/
theorem buildRowE_ok_of_safe {schema : List (String × String)} {tick : Nat}
    {columns : List String} {row : List PyVal}
    (hrow : row.all (fun c => !isInfCell c) = true) :
    ∀ (matched : List (String × Option String)),
      ∃ t, buildRowE schema tick columns row matched = .ok t := by
  intro matched
  induction matched with
  | nil => exact ⟨[], rfl⟩
  | cons p ps ih =>
    obtain ⟨w, hw⟩ := @cellForE_ok_of_safe schema tick columns row p hrow
    obtain ⟨t, ht⟩ := ih
    refine ⟨w :: t, ?_⟩
    rw [buildRowE, hw, ht]

/-- A successfully built batch has one tuple per row. -/
theorem batchRowsE_ok_length {matched : List (String × Option String)}
    {schema : List (String × String)} {tick : Nat} {columns : List String} :
    ∀ {b : List (List PyVal)} {d : List (List PyVal)},
      batchRowsE matched schema tick columns b = .ok d → d.length = b.length := by
  intro b
  induction b with
  | nil => intro d h; cases h; rfl
  | cons r rs ih =>
    intro d h
    rw [batchRowsE] at h
    rcases hr : buildRowE schema tick columns r matched with e | t <;> rw [hr] at h
    · exact Except.noConfusion h
    · rcases hb : batchRowsE matched schema tick columns rs with e | ts <;> rw [hb] at h
      · exact Except.noConfusion h
      · cases h
        simp [ih hb]

/-- Every tuple of a successfully built batch has the mapping's arity. -/
theorem batchRowsE_ok_tuple_lengths {matched : List (String × Option String)}
    {schema : List (String × String)} {tick : Nat} {columns : List String} :
    ∀ {b : List (List PyVal)} {d : List (List PyVal)},
      batchRowsE matched schema tick columns b = .ok d →
      ∀ t ∈ d, t.length = matched.length := by
  intro b
  induction b with
  | nil => intro d h; cases h; intro t ht; simp at ht
  | cons r rs ih =>
    intro d h
    rw [batchRowsE] at h
    rcases hr : buildRowE schema tick columns r matched with e | t <;> rw [hr] at h
    · exact Except.noConfusion h
    · rcases hb : batchRowsE matched schema tick columns rs with e | ts <;> rw [hb] at h
      · exact Except.noConfusion h
      · cases h
        intro t' ht'
        rcases List.mem_cons.mp ht' with rfl | ht'
        · exact buildRowE_ok_length hr
        · exact ih hb t' ht'

/-- Every clock stamp inside a successfully built batch is the captured
tick. -/
theorem batchRowsE_ok_stamps {matched : List (String × Option String)}
    {schema : List (String × String)} {tick : Nat} {columns : List String} :
    ∀ {b : List (List PyVal)} {d : List (List PyVal)},
      b.all (fun r => r.all isCSVCell) = true →
      batchRowsE matched schema tick columns b = .ok d →
      ∀ t ∈ d, ∀ s ∈ tupleClockStamps t, s = tick := by
  intro b
  induction b with
  | nil => intro d _ h; cases h; intro t ht; simp at ht
  | cons r rs ih =>
    intro d hcsv h
    have hcsv' := List.all_eq_true.mp hcsv
    rw [batchRowsE] at h
    rcases hr : buildRowE schema tick columns r matched with e | t <;> rw [hr] at h
    · exact Except.noConfusion h
    · rcases hb : batchRowsE matched schema tick columns rs with e | ts <;> rw [hb] at h
      · exact Except.noConfusion h
      · cases h
        intro t' ht'
        rcases List.mem_cons.mp ht' with rfl | ht'
        · exact buildRowE_ok_stamps (hcsv' r (List.mem_cons_self _ _)) hr
        · refine ih ?_ hb t' ht'
          exact List.all_eq_true.mpr (fun x hx => hcsv' x (List.mem_cons_of_mem _ hx))

/-- A batch of rows without infinite-float cells always builds. -/
theorem batchRowsE_ok_of_safe {matched : List (String × Option String)}
    {schema : List (String × String)} {tick : Nat} {columns : List String} :
    ∀ {b : List (List PyVal)},
      b.all (fun r => r.all (fun c => !isInfCell c)) = true →
      ∃ d, batchRowsE matched schema tick columns b = .ok d := by
  intro b
  induction b with
  | nil => exact fun _ => ⟨[], rfl⟩
  | cons r rs ih =>
    intro hsafe
    have hsafe' := List.all_eq_true.mp hsafe
    obtain ⟨t, ht⟩ := buildRowE_ok_of_safe (hsafe' r (List.mem_cons_self _ _)) matched
    obtain ⟨d, hd⟩ := ih (List.all_eq_true.mpr
      (fun x hx => hsafe' x (List.mem_cons_of_mem _ hx)))
    refine ⟨t :: d, ?_⟩
    rw [batchRowsE, ht, hd]

/-- The batch loop's contract when every batch builds: the returned
count is the sum of the sizes of the successfully executed batches, the
recorded errors are exactly one per failed batch in order, and every
batch consumes exactly one prepared-statement execution. -/
theorem runBatches_spec (fail : Nat → Option String)
    (matched : List (String × Option String)) (schema : List (String × String))
    (tick : Nat) (columns : List String) (tableName : String) :
    ∀ (batches : List (List (List PyVal))) (startIdx total inserted : Nat) (st : RunState),
      (∀ b ∈ batches, b ≠ []) →
      (∀ b ∈ batches, ∃ d, batchRowsE matched schema tick columns b = .ok d) →
      (runBatches fail matched schema tick columns tableName startIdx total inserted st
          batches).1 = .ok (inserted + successSum fail st.stmts batches) ∧
      (runBatches fail matched schema tick columns tableName startIdx total inserted st
          batches).2.errors = st.errors ++ failMsgs fail st.stmts batches ∧
      (runBatches fail matched schema tick columns tableName startIdx total inserted st
          batches).2.stmts = st.stmts + batches.length := by
  intro batches
  induction batches with
  | nil =>
    intro startIdx total inserted st _ _
    simp [runBatches, successSum, failMsgs]
  | cons b bs ih =>
    intro startIdx total inserted st hne hok
    obtain ⟨d, hd⟩ := hok b (List.mem_cons_self _ _)
    have hdne : d.isEmpty = false := by
      have hlen := batchRowsE_ok_length hd
      have hbne := hne b (List.mem_cons_self _ _)
      cases d with
      | nil =>
        cases b with
        | nil => exact absurd rfl hbne
        | cons x xs => simp at hlen
      | cons x xs => rfl
    have hne' : ∀ x ∈ bs, x ≠ [] := fun x hx => hne x (List.mem_cons_of_mem _ hx)
    have hok' : ∀ x ∈ bs, ∃ dd, batchRowsE matched schema tick columns x = .ok dd :=
      fun x hx => hok x (List.mem_cons_of_mem _ hx)
    have hl := batchRowsE_ok_length hd
    simp only [runBatches, hd, hdne, Bool.false_eq_true, if_false]
    rcases hf : fail st.stmts with _ | e
    · refine ⟨?_, ?_, ?_⟩
      · rw [(ih _ _ _ _ hne' hok').1]
        simp only [logMsg_stmts, emitEvent_stmts, successSum, hf]
        exact congrArg Except.ok (by omega)
      · rw [(ih _ _ _ _ hne' hok').2.1]
        simp only [logMsg_stmts, emitEvent_stmts, logMsg_errors, emitEvent_errors,
          failMsgs, hf]
        simp
      · rw [(ih _ _ _ _ hne' hok').2.2]
        simp only [logMsg_stmts, emitEvent_stmts, List.length_cons]
        omega
    · refine ⟨?_, ?_, ?_⟩
      · rw [(ih _ _ _ _ hne' hok').1]
        simp only [logMsg_stmts, emitEvent_stmts, successSum, hf]
        exact congrArg Except.ok (by omega)
      · rw [(ih _ _ _ _ hne' hok').2.1]
        simp only [logMsg_stmts, emitEvent_stmts, logMsg_errors, emitEvent_errors,
          failMsgs, hf]
        simp
      · rw [(ih _ _ _ _ hne' hok').2.2]
        simp only [logMsg_stmts, emitEvent_stmts, List.length_cons]
        omega

/-- The batch loop only appends events, and every appended event is an
insert execution for this table whose data comes from a successfully
built batch. -/
theorem runBatches_events (fail : Nat → Option String)
    (matched : List (String × Option String)) (schema : List (String × String))
    (tick : Nat) (columns : List String) (tableName : String) (P : Event → Prop) :
    ∀ (batches : List (List (List PyVal))) (startIdx total inserted : Nat) (st : RunState),
      (∀ b ∈ batches, ∀ (d : List (List PyVal)) (ok : Bool),
        batchRowsE matched schema tick columns b = .ok d →
        P (.execBatch tableName d ok)) →
      ∃ es, (runBatches fail matched schema tick columns tableName startIdx total inserted st
          batches).2.events = st.events ++ es ∧ ∀ e ∈ es, P e := by
  intro batches
  induction batches with
  | nil =>
    intro _ _ _ st _
    exact ⟨[], by simp [runBatches], by simp⟩
  | cons b bs ih =>
    intro startIdx total inserted st hP
    have hP' : ∀ x ∈ bs, ∀ (d : List (List PyVal)) (ok : Bool),
        batchRowsE matched schema tick columns x = .ok d →
        P (.execBatch tableName d ok) :=
      fun x hx => hP x (List.mem_cons_of_mem _ hx)
    rcases hd : batchRowsE matched schema tick columns b with e | d
    · refine ⟨[], ?_, by simp⟩
      simp [runBatches, hd]
    · cases hde : d.isEmpty with
      | true =>
        obtain ⟨es', h1, h2⟩ := ih (startIdx + 1000) total inserted st hP'
        refine ⟨es', ?_, h2⟩
        simpa [runBatches, hd, hde] using h1
      | false =>
        rcases hf : fail st.stmts with _ | e
        · obtain ⟨es', h1, h2⟩ := ih (startIdx + 1000) total (inserted + d.length)
            (logMsg "INFO"
              ("Inserted batch " ++ toString startIdx ++ "-"
                ++ toString (min (startIdx + 1000) total) ++ " of " ++ toString total
                ++ " rows")
              (emitEvent (Event.execBatch tableName d true) { st with stmts := st.stmts + 1 }))
            hP'
          refine ⟨Event.execBatch tableName d true :: es', ?_, ?_⟩
          · simp only [runBatches, hd, hde, Bool.false_eq_true, if_false, hf]
            rw [h1]
            simp [logMsg, nowTick, emitEvent]
          · intro e he
            rcases List.mem_cons.mp he with rfl | he
            · exact hP b (List.mem_cons_self _ _) d true hd
            · exact h2 e he
        · obtain ⟨es', h1, h2⟩ := ih (startIdx + 1000) total inserted
            (logMsg "ERROR" ("Error inserting batch: " ++ e)
              (emitEvent (Event.execBatch tableName d false) { st with stmts := st.stmts + 1 }))
            hP'
          refine ⟨Event.execBatch tableName d false :: es', ?_, ?_⟩
          · simp only [runBatches, hd, hde, Bool.false_eq_true, if_false, hf]
            rw [h1]
            simp [logMsg, nowTick, emitEvent]
          · intro ev hev
            rcases List.mem_cons.mp hev with rfl | hev
            · exact hP b (List.mem_cons_self _ _) d false hd
            · exact h2 ev hev

/-- The batch loop never touches the report's file lists or status. -/
theorem runBatches_quiet (fail : Nat → Option String)
    (matched : List (String × Option String)) (schema : List (String × String))
    (tick : Nat) (columns : List String) (tableName : String) :
    ∀ (batches : List (List (List PyVal))) (startIdx total inserted : Nat) (st : RunState),
      (runBatches fail matched schema tick columns tableName startIdx total inserted st
          batches).2.processedFiles = st.processedFiles ∧
      (runBatches fail matched schema tick columns tableName startIdx total inserted st
          batches).2.downloadedFiles = st.downloadedFiles ∧
      (runBatches fail matched schema tick columns tableName startIdx total inserted st
          batches).2.status = st.status := by
  intro batches
  induction batches with
  | nil =>
    intro _ _ _ st
    simp [runBatches]
  | cons b bs ih =>
    intro startIdx total inserted st
    rcases hd : batchRowsE matched schema tick columns b with e | d
    · simp [runBatches, hd]
    · cases hde : d.isEmpty with
      | true =>
        simp only [runBatches, hd, hde, if_true]
        exact ih _ _ _ _
      | false =>
        rcases hf : fail st.stmts with _ | e <;>
          simp only [runBatches, hd, hde, Bool.false_eq_true, if_false, hf] <;>
          refine ⟨?_, ?_, ?_⟩
        · rw [(ih _ _ _ _).1]; simp [logMsg, nowTick, emitEvent]
        · rw [(ih _ _ _ _).2.1]; simp [logMsg, nowTick, emitEvent]
        · rw [(ih _ _ _ _).2.2]; simp [logMsg, nowTick, emitEvent]
        · rw [(ih _ _ _ _).1]; simp [logMsg, nowTick, emitEvent]
        · rw [(ih _ _ _ _).2.1]; simp [logMsg, nowTick, emitEvent]
        · rw [(ih _ _ _ _).2.2]; simp [logMsg, nowTick, emitEvent]

@[simp] theorem nowTick_snd_stmts (st : RunState) : (nowTick st).2.stmts = st.stmts := rfl

@[simp] theorem nowTick_snd_errors (st : RunState) : (nowTick st).2.errors = st.errors := rfl

@[simp] theorem nowTick_snd_status (st : RunState) : (nowTick st).2.status = st.status := rfl

@[simp] theorem nowTick_snd_processedFiles (st : RunState) :
    (nowTick st).2.processedFiles = st.processedFiles := rfl

@[simp] theorem nowTick_snd_downloadedFiles (st : RunState) :
    (nowTick st).2.downloadedFiles = st.downloadedFiles := rfl

/-- Logging a list of warnings changes neither the database trace, the
error list, the statement counter, nor the report's file lists. -/
theorem warnFold_proj (ws : List String) : ∀ st : RunState,
    (List.foldl (fun s w => logMsg "WARNING" w s) st ws).errors = st.errors ∧
    (List.foldl (fun s w => logMsg "WARNING" w s) st ws).stmts = st.stmts ∧
    (List.foldl (fun s w => logMsg "WARNING" w s) st ws).events = st.events ∧
    (List.foldl (fun s w => logMsg "WARNING" w s) st ws).processedFiles = st.processedFiles ∧
    (List.foldl (fun s w => logMsg "WARNING" w s) st ws).downloadedFiles = st.downloadedFiles ∧
    (List.foldl (fun s w => logMsg "WARNING" w s) st ws).status = st.status := by
  induction ws with
  | nil => intro st; simp
  | cons w ws ih =>
    intro st
    obtain ⟨h1, h2, h3, h4, h5, h6⟩ := ih (logMsg "WARNING" w st)
    simp only [List.foldl_cons]
    refine ⟨?_, ?_, ?_, ?_, ?_, ?_⟩ <;> simp_all [logMsg, nowTick]

@[simp] theorem warnedState_errors (df : DFrame) (schema : List (String × String))
    (st : RunState) : (warnedState df schema st).errors = st.errors :=
  (warnFold_proj _ st).1

@[simp] theorem warnedState_stmts (df : DFrame) (schema : List (String × String))
    (st : RunState) : (warnedState df schema st).stmts = st.stmts :=
  (warnFold_proj _ st).2.1

@[simp] theorem warnedState_events (df : DFrame) (schema : List (String × String))
    (st : RunState) : (warnedState df schema st).events = st.events :=
  (warnFold_proj _ st).2.2.1

@[simp] theorem warnedState_processedFiles (df : DFrame) (schema : List (String × String))
    (st : RunState) : (warnedState df schema st).processedFiles = st.processedFiles :=
  (warnFold_proj _ st).2.2.2.1

@[simp] theorem warnedState_downloadedFiles (df : DFrame) (schema : List (String × String))
    (st : RunState) : (warnedState df schema st).downloadedFiles = st.downloadedFiles :=
  (warnFold_proj _ st).2.2.2.2.1

@[simp] theorem warnedState_status (df : DFrame) (schema : List (String × String))
    (st : RunState) : (warnedState df schema st).status = st.status :=
  (warnFold_proj _ st).2.2.2.2.2

@[simp] theorem preparedState_stmts (df : DFrame) (tableName : String)
    (schema : List (String × String)) (st : RunState) :
    (preparedState df tableName schema st).stmts = st.stmts := by
  simp [preparedState]

@[simp] theorem preparedState_errors (df : DFrame) (tableName : String)
    (schema : List (String × String)) (st : RunState) :
    (preparedState df tableName schema st).errors = st.errors := by
  simp [preparedState]

@[simp] theorem preparedState_events (df : DFrame) (tableName : String)
    (schema : List (String × String)) (st : RunState) :
    (preparedState df tableName schema st).events
      = st.events ++ [Event.prepareStmt tableName
          (insertQueryOf tableName
            (matchColumns (schema.map (fun c => c.1)) df.columns).1)] := by
  simp [preparedState]

@[simp] theorem preparedState_processedFiles (df : DFrame) (tableName : String)
    (schema : List (String × String)) (st : RunState) :
    (preparedState df tableName schema st).processedFiles = st.processedFiles := by
  simp [preparedState]

@[simp] theorem preparedState_downloadedFiles (df : DFrame) (tableName : String)
    (schema : List (String × String)) (st : RunState) :
    (preparedState df tableName schema st).downloadedFiles = st.downloadedFiles := by
  simp [preparedState]

@[simp] theorem preparedState_status (df : DFrame) (tableName : String)
    (schema : List (String × String)) (st : RunState) :
    (preparedState df tableName schema st).status = st.status := by
  simp [preparedState]

/-- `process_dataframe`'s contract when at least one column matches and
no cell is an infinite float: the returned count is the sum of the
successfully executed batch sizes, exactly one error line is recorded
per failed batch, and each batch consumed one statement execution. -/
theorem process_dataframe_spec (orc : Oracles) (df : DFrame) (tableName : String)
    (schema : List (String × String)) (st : RunState)
    (hmatch : (matchColumns (schema.map (fun c => c.1)) df.columns).1.isEmpty = false)
    (hsafe : noInfCells df.rows = true) :
    (process_dataframe orc df tableName schema st).1
      = .ok (successSum orc.stmtFail st.stmts (chunksOf 1000 df.rows)) ∧
    (process_dataframe orc df tableName schema st).2.errors
      = st.errors ++ failMsgs orc.stmtFail st.stmts (chunksOf 1000 df.rows) ∧
    (process_dataframe orc df tableName schema st).2.stmts
      = st.stmts + (chunksOf 1000 df.rows).length := by
  have hne := chunksOf_mem_ne_nil 1000 df.rows
  have hok : ∀ (tick : Nat), ∀ b ∈ chunksOf 1000 df.rows,
      ∃ d, batchRowsE (matchColumns (schema.map (fun c => c.1)) df.columns).1 schema tick
        df.columns b = .ok d := by
    intro tick b hb
    apply batchRowsE_ok_of_safe
    rw [List.all_eq_true]
    intro r hr
    exact List.all_eq_true.mp hsafe r (chunksOf_mem_mem 1000 df.rows b hb r hr)
  have key := fun (tick : Nat) (st' : RunState) =>
    runBatches_spec orc.stmtFail (matchColumns (schema.map (fun c => c.1)) df.columns).1
      schema tick df.columns tableName (chunksOf 1000 df.rows) 0 df.rows.length 0 st'
      hne (hok tick)
  unfold process_dataframe
  simp only [hmatch, Bool.false_eq_true, if_false]
  rw [(key _ _).1]
  dsimp only
  refine ⟨?_, ?_, ?_⟩
  · simp only [nowTick_snd_stmts, preparedState_stmts]
    exact congrArg Except.ok (by omega)
  · simp only [logMsg_errors]
    rw [if_neg (by decide), (key _ _).2.1]
    simp only [nowTick_snd_stmts, preparedState_stmts, nowTick_snd_errors, preparedState_errors]
  · simp only [logMsg_stmts]
    rw [(key _ _).2.2]
    simp only [nowTick_snd_stmts, preparedState_stmts]

/-- C3: a failed prepared-statement execution is recorded as an error
and loading proceeds with the next batch; the returned count is the sum
of the sizes of the successfully executed batches only, every batch
having been attempted (one statement execution per batch). -/
theorem c3_failed_batches_skipped (orc : Oracles) (df : DFrame) (tableName : String)
    (schema : List (String × String)) (st : RunState)
    (hmatch : (matchColumns (schema.map (fun c => c.1)) df.columns).1 ≠ [])
    (hsafe : noInfCells df.rows = true) :
    (process_dataframe orc df tableName schema st).1
      = .ok (successSum orc.stmtFail st.stmts (chunksOf 1000 df.rows)) ∧
    (process_dataframe orc df tableName schema st).2.errors
      = st.errors ++ failMsgs orc.stmtFail st.stmts (chunksOf 1000 df.rows) ∧
    (process_dataframe orc df tableName schema st).2.stmts
      = st.stmts + (chunksOf 1000 df.rows).length :=
  process_dataframe_spec orc df tableName schema st
    (by rw [List.isEmpty_eq_false]; exact hmatch) hsafe

/-- Witness for C3 at a concrete input: one batch whose execution
fails, so the returned count is 0 and the error is recorded. -/
theorem c3_failed_batches_skipped_witness :
    ((matchColumns ["a"] ["a"]).1 ≠ [] ∧
      noInfCells [[PyVal.str "x"], [PyVal.str "y"]] = true) ∧
    (process_dataframe
      ⟨fun _ => some "boom", fun _ => [], fun _ => true, fun _ => ⟨[], []⟩,
        fun _ => 0, 10000⟩
      ⟨["a"], [[PyVal.str "x"], [PyVal.str "y"]]⟩ "t" [("a", "text")]
      initialRunState).1 = .ok 0 ∧
    (process_dataframe
      ⟨fun _ => some "boom", fun _ => [], fun _ => true, fun _ => ⟨[], []⟩,
        fun _ => 0, 10000⟩
      ⟨["a"], [[PyVal.str "x"], [PyVal.str "y"]]⟩ "t" [("a", "text")]
      initialRunState).2.errors = ["Error inserting batch: boom"] := by
  refine ⟨⟨by decide, by decide⟩, ?_, ?_⟩
  · rw [(c3_failed_batches_skipped
        ⟨fun _ => some "boom", fun _ => [], fun _ => true, fun _ => ⟨[], []⟩,
          fun _ => 0, 10000⟩
        ⟨["a"], [[PyVal.str "x"], [PyVal.str "y"]]⟩ "t" [("a", "text")]
        initialRunState (by decide) (by decide)).1]
    exact congrArg Except.ok (by decide)
  · rw [(c3_failed_batches_skipped
        ⟨fun _ => some "boom", fun _ => [], fun _ => true, fun _ => ⟨[], []⟩,
          fun _ => 0, 10000⟩
        ⟨["a"], [[PyVal.str "x"], [PyVal.str "y"]]⟩ "t" [("a", "text")]
        initialRunState (by decide) (by decide)).2.1]
    decide

/-- `process_dataframe` only appends events: one prepare, then insert
executions whose data comes from successfully built batches. -/
theorem process_dataframe_events (orc : Oracles) (df : DFrame) (tableName : String)
    (schema : List (String × String)) (st : RunState) (P : Event → Prop)
    (hprep : ∀ q, P (.prepareStmt tableName q))
    (hexec : ∀ (b d : List (List PyVal)) (ok : Bool),
      b ∈ chunksOf 1000 df.rows →
      batchRowsE (matchColumns (schema.map (fun c => c.1)) df.columns).1 schema
        (preparedState df tableName schema st).clock df.columns b = .ok d →
      P (.execBatch tableName d ok)) :
    ∃ es, (process_dataframe orc df tableName schema st).2.events = st.events ++ es ∧
      ∀ e ∈ es, P e := by
  unfold process_dataframe
  by_cases hm : (matchColumns (schema.map (fun c => c.1)) df.columns).1.isEmpty = true
  · refine ⟨[], ?_, by simp⟩
    simp [hm]
  · rw [if_neg hm]
    dsimp only
    obtain ⟨es', h1, h2⟩ := runBatches_events orc.stmtFail
      (matchColumns (schema.map (fun c => c.1)) df.columns).1 schema
      (preparedState df tableName schema st).clock df.columns tableName P
      (chunksOf 1000 df.rows) 0 df.rows.length 0
      (nowTick (preparedState df tableName schema st)).2
      (fun b hb d ok hd => hexec b d ok hb hd)
    refine ⟨Event.prepareStmt tableName
        (insertQueryOf tableName (matchColumns (schema.map (fun c => c.1)) df.columns).1)
        :: es', ?_, ?_⟩
    · split
      · simp only [logMsg_events]
        rw [h1]
        simp
      · rw [h1]
        simp
    · intro e he
      rcases List.mem_cons.mp he with rfl | he
      · exact hprep _
      · exact h2 e he

/-- `process_dataframe` never touches the report's file lists or status. -/
theorem process_dataframe_quiet (orc : Oracles) (df : DFrame) (tableName : String)
    (schema : List (String × String)) (st : RunState) :
    (process_dataframe orc df tableName schema st).2.processedFiles = st.processedFiles ∧
    (process_dataframe orc df tableName schema st).2.downloadedFiles = st.downloadedFiles ∧
    (process_dataframe orc df tableName schema st).2.status = st.status := by
  unfold process_dataframe
  by_cases hm : (matchColumns (schema.map (fun c => c.1)) df.columns).1.isEmpty = true
  · simp [hm]
  · rw [if_neg hm]
    dsimp only
    split
    · refine ⟨?_, ?_, ?_⟩
      · simp only [logMsg_processedFiles]
        rw [(runBatches_quiet _ _ _ _ _ _ _ _ _ _ _).1]
        simp
      · simp only [logMsg_downloadedFiles]
        rw [(runBatches_quiet _ _ _ _ _ _ _ _ _ _ _).2.1]
        simp
      · simp only [logMsg_status]
        rw [(runBatches_quiet _ _ _ _ _ _ _ _ _ _ _).2.2]
        simp
    · refine ⟨?_, ?_, ?_⟩
      · rw [(runBatches_quiet _ _ _ _ _ _ _ _ _ _ _).1]
        simp
      · rw [(runBatches_quiet _ _ _ _ _ _ _ _ _ _ _).2.1]
        simp
      · rw [(runBatches_quiet _ _ _ _ _ _ _ _ _ _ _).2.2]
        simp

/-- C8: every parameter tuple sent by the insert statements of one
`process_dataframe` call has exactly the computed column mapping's
arity, one position per mapped database column, regardless of absent,
blank or coercion-failing source columns. -/
theorem c8_tuple_arity (orc : Oracles) (df : DFrame) (tableName : String)
    (schema : List (String × String)) (st : RunState) :
    ∀ tup ∈ execTuples
      ((process_dataframe orc df tableName schema st).2.events.drop st.events.length),
      tup.length = (matchColumns (schema.map (fun c => c.1)) df.columns).1.length := by
  obtain ⟨es, h1, h2⟩ := process_dataframe_events orc df tableName schema st
    (fun e => ∀ tup ∈ e.tupleData,
      tup.length = (matchColumns (schema.map (fun c => c.1)) df.columns).1.length)
    (fun q => by intro tup htup; simp [Event.tupleData] at htup)
    (fun b d ok hb hd => by
      intro tup htup
      exact batchRowsE_ok_tuple_lengths hd tup htup)
  rw [h1, List.drop_left]
  intro tup htup
  simp only [execTuples, List.mem_flatten, List.mem_map] at htup
  obtain ⟨l, ⟨e, he, rfl⟩, htl⟩ := htup
  exact h2 e he tup htl

/-- Witness for C8: a one-row, one-column frame; the single sent tuple
has arity 1 = the mapping's cardinality. -/
theorem c8_tuple_arity_witness :
    [PyVal.str "x"] ∈ execTuples
      ((process_dataframe
        ⟨fun _ => Option.none, fun _ => [], fun _ => true, fun _ => ⟨[], []⟩,
          fun _ => 0, 10000⟩
        ⟨["a"], [[PyVal.str "x"]]⟩ "t" [("a", "text")]
        initialRunState).2.events.drop initialRunState.events.length) ∧
    [PyVal.str "x"].length = (matchColumns ["a"] ["a"]).1.length :=
  ⟨by decide, c8_tuple_arity
    ⟨fun _ => Option.none, fun _ => [], fun _ => true, fun _ => ⟨[], []⟩,
      fun _ => 0, 10000⟩
    ⟨["a"], [[PyVal.str "x"]]⟩ "t" [("a", "text")] initialRunState
    [PyVal.str "x"] (by decide)⟩

/-- With no matching column, `process_dataframe` returns Python's
`False`, i.e. the count 0. -/
theorem process_dataframe_noMatch (orc : Oracles) (df : DFrame) (tableName : String)
    (schema : List (String × String)) (st : RunState)
    (hm : (matchColumns (schema.map (fun c => c.1)) df.columns).1.isEmpty = true) :
    (process_dataframe orc df tableName schema st).1 = .ok 0 := by
  unfold process_dataframe
  simp [hm]

/-- The chunk loop only appends prepare and insert events for this
table. -/
theorem runChunks_events (orc : Oracles) (columns : List String) (tableName : String)
    (schema : List (String × String)) (P : Event → Prop)
    (hprep : ∀ q, P (.prepareStmt tableName q))
    (hexec : ∀ (d : List (List PyVal)) (ok : Bool), P (.execBatch tableName d ok)) :
    ∀ (chunks : List (List (List PyVal))) (startIdx total acc : Nat) (st : RunState),
      ∃ es, (runChunks orc columns tableName schema startIdx total acc st chunks).2.events
        = st.events ++ es ∧ ∀ e ∈ es, P e := by
  intro chunks
  induction chunks with
  | nil =>
    intro _ _ _ st
    exact ⟨[], by simp [runChunks], by simp⟩
  | cons c cs ih =>
    intro startIdx total acc st
    obtain ⟨es1, h1, h2⟩ := process_dataframe_events orc ⟨columns, c⟩ tableName schema
      (logMsg "INFO" ("Processing chunk (rows " ++ toString startIdx ++ "-"
        ++ toString (min (startIdx + orc.chunkSize) total) ++ ")") st) P hprep
      (fun b d ok _ hd => hexec d ok)
    simp only [runChunks]
    split
    next n heq =>
      obtain ⟨es2, h3, h4⟩ := ih (startIdx + orc.chunkSize) total (acc + n)
        (process_dataframe orc ⟨columns, c⟩ tableName schema
          (logMsg "INFO" ("Processing chunk (rows " ++ toString startIdx ++ "-"
            ++ toString (min (startIdx + orc.chunkSize) total) ++ ")") st)).2
      refine ⟨es1 ++ es2, ?_, ?_⟩
      · rw [h3, h1]
        simp [logMsg_events]
      · intro e he
        rcases List.mem_append.mp he with he | he
        · exact h2 e he
        · exact h4 e he
    next e heq =>
      refine ⟨es1, ?_, h2⟩
      rw [h1]
      simp [logMsg_events]

/-- The chunk loop never touches the report's file lists or status. -/
theorem runChunks_quiet (orc : Oracles) (columns : List String) (tableName : String)
    (schema : List (String × String)) :
    ∀ (chunks : List (List (List PyVal))) (startIdx total acc : Nat) (st : RunState),
      (runChunks orc columns tableName schema startIdx total acc st chunks).2.processedFiles
        = st.processedFiles ∧
      (runChunks orc columns tableName schema startIdx total acc st chunks).2.downloadedFiles
        = st.downloadedFiles ∧
      (runChunks orc columns tableName schema startIdx total acc st chunks).2.status
        = st.status := by
  intro chunks
  induction chunks with
  | nil =>
    intro _ _ _ st
    simp [runChunks]
  | cons c cs ih =>
    intro startIdx total acc st
    obtain ⟨p1, p2, p3⟩ := process_dataframe_quiet orc ⟨columns, c⟩ tableName schema
      (logMsg "INFO" ("Processing chunk (rows " ++ toString startIdx ++ "-"
        ++ toString (min (startIdx + orc.chunkSize) total) ++ ")") st)
    simp only [runChunks]
    split
    next n heq =>
      obtain ⟨q1, q2, q3⟩ := ih (startIdx + orc.chunkSize) total (acc + n)
        (process_dataframe orc ⟨columns, c⟩ tableName schema
          (logMsg "INFO" ("Processing chunk (rows " ++ toString startIdx ++ "-"
            ++ toString (min (startIdx + orc.chunkSize) total) ++ ")") st)).2
      refine ⟨?_, ?_, ?_⟩
      · rw [q1, p1]; simp
      · rw [q2, p2]; simp
      · rw [q3, p3]; simp
    next e heq =>
      refine ⟨?_, ?_, ?_⟩
      · rw [p1]; simp
      · rw [p2]; simp
      · rw [p3]; simp

/-- With no matching column, every chunk contributes 0 rows. -/
theorem runChunks_noMatch (orc : Oracles) (columns : List String) (tableName : String)
    (schema : List (String × String))
    (hm : (matchColumns (schema.map (fun c => c.1)) columns).1.isEmpty = true) :
    ∀ (chunks : List (List (List PyVal))) (startIdx total acc : Nat) (st : RunState),
      (runChunks orc columns tableName schema startIdx total acc st chunks).1 = .ok acc := by
  intro chunks
  induction chunks with
  | nil => intro _ _ _ st; simp [runChunks]
  | cons c cs ih =>
    intro startIdx total acc st
    have h0 := process_dataframe_noMatch orc ⟨columns, c⟩ tableName schema
      (logMsg "INFO" ("Processing chunk (rows " ++ toString startIdx ++ "-"
        ++ toString (min (startIdx + orc.chunkSize) total) ++ ")") st) hm
    simp only [runChunks]
    split
    next n heq =>
      rw [h0] at heq
      cases heq
      simpa using ih (startIdx + orc.chunkSize) total (acc + 0) _
    next e heq =>
      rw [h0] at heq
      exact Except.noConfusion heq

@[simp] theorem truncatedState_events (orc : Oracles) (csvFile tableName : String)
    (st : RunState) :
    (truncatedState orc csvFile tableName st).events
      = st.events ++ [Event.truncate tableName (orc.truncOk tableName)] := by
  unfold truncatedState
  split_ifs <;> simp

@[simp] theorem truncatedState_processedFiles (orc : Oracles) (csvFile tableName : String)
    (st : RunState) :
    (truncatedState orc csvFile tableName st).processedFiles = st.processedFiles := by
  unfold truncatedState
  split_ifs <;> simp

@[simp] theorem truncatedState_downloadedFiles (orc : Oracles) (csvFile tableName : String)
    (st : RunState) :
    (truncatedState orc csvFile tableName st).downloadedFiles = st.downloadedFiles := by
  unfold truncatedState
  split_ifs <;> simp

@[simp] theorem truncatedState_status (orc : Oracles) (csvFile tableName : String)
    (st : RunState) :
    (truncatedState orc csvFile tableName st).status = st.status := by
  unfold truncatedState
  split_ifs <;> simp

@[simp] theorem schemaState_events (orc : Oracles) (csvFile tableName : String)
    (st : RunState) :
    (schemaState orc csvFile tableName st).events
      = st.events ++ [Event.truncate tableName (orc.truncOk tableName),
          Event.schemaQuery tableName] := by
  simp [schemaState, get_table_schema]

@[simp] theorem schemaState_processedFiles (orc : Oracles) (csvFile tableName : String)
    (st : RunState) :
    (schemaState orc csvFile tableName st).processedFiles = st.processedFiles := by
  simp [schemaState, get_table_schema]

@[simp] theorem schemaState_downloadedFiles (orc : Oracles) (csvFile tableName : String)
    (st : RunState) :
    (schemaState orc csvFile tableName st).downloadedFiles = st.downloadedFiles := by
  simp [schemaState, get_table_schema]

@[simp] theorem schemaState_status (orc : Oracles) (csvFile tableName : String)
    (st : RunState) :
    (schemaState orc csvFile tableName st).status = st.status := by
  simp [schemaState, get_table_schema]

@[simp] theorem readState_events (orc : Oracles) (csvFile tableName : String)
    (st : RunState) :
    (readState orc csvFile tableName st).events
      = st.events ++ [Event.truncate tableName (orc.truncOk tableName),
          Event.schemaQuery tableName] := by
  simp [readState]

@[simp] theorem readState_processedFiles (orc : Oracles) (csvFile tableName : String)
    (st : RunState) :
    (readState orc csvFile tableName st).processedFiles = st.processedFiles := by
  simp [readState]

@[simp] theorem readState_downloadedFiles (orc : Oracles) (csvFile tableName : String)
    (st : RunState) :
    (readState orc csvFile tableName st).downloadedFiles = st.downloadedFiles := by
  simp [readState]

@[simp] theorem readState_status (orc : Oracles) (csvFile tableName : String)
    (st : RunState) :
    (readState orc csvFile tableName st).status = st.status := by
  simp [readState]

/-- C5: one `import_data` call (a file's load in a run) issues exactly
one truncate of its target table, as its first database operation, and
no later event of the call — in particular none of the chunked
processing — is a truncate; hence the truncate precedes every insert of
the file's load. -/
theorem c5_truncate_once_before_inserts (orc : Oracles) (csvFile tableName : String)
    (st : RunState) :
    ∃ tail, (import_data orc csvFile tableName st).2.events
        = st.events ++ Event.truncate tableName (orc.truncOk tableName) :: tail ∧
      ∀ e ∈ tail, e.isTruncate = false := by
  unfold import_data
  by_cases hs : (orc.schemaOf tableName).isEmpty = true
  · refine ⟨[Event.schemaQuery tableName], ?_, by simp [Event.isTruncate]⟩
    simp [hs]
  · rw [if_neg hs]
    dsimp only
    by_cases hsize : 10 < orc.sizeOf csvFile
    · rw [if_pos hsize]
      obtain ⟨es, h1, h2⟩ := runChunks_events orc (cleanedDF (orc.contentOf csvFile)).columns
        tableName (orc.schemaOf tableName) (fun e => e.isTruncate = false)
        (fun q => rfl) (fun d ok => rfl)
        (chunksOf orc.chunkSize (cleanedDF (orc.contentOf csvFile)).rows)
        0 (cleanedDF (orc.contentOf csvFile)).rows.length 0
        (logMsg "INFO" "Large file detected, processing in chunks"
          (readState orc csvFile tableName st))
      refine ⟨Event.schemaQuery tableName :: es, ?_, ?_⟩
      · split
        · simp only [logMsg_events]
          rw [h1]
          simp
        · simp only [logMsg_events]
          rw [h1]
          simp
      · intro e he
        rcases List.mem_cons.mp he with rfl | he
        · rfl
        · exact h2 e he
    · rw [if_neg hsize]
      obtain ⟨es, h1, h2⟩ := process_dataframe_events orc (cleanedDF (orc.contentOf csvFile))
        tableName (orc.schemaOf tableName) (readState orc csvFile tableName st)
        (fun e => e.isTruncate = false) (fun q => rfl) (fun b d ok _ _ => rfl)
      refine ⟨Event.schemaQuery tableName :: es, ?_, ?_⟩
      · split
        · simp only [logMsg_events]
          rw [h1]
          simp
        · simp only [logMsg_events]
          rw [h1]
          simp
      · intro e he
        rcases List.mem_cons.mp he with rfl | he
        · rfl
        · exact h2 e he

/-- Membership in the clock stamps of a trace: some event carries a
tuple containing the stamp. -/
theorem mem_clockStamps {es : List Event} {s : Nat} :
    s ∈ clockStamps es ↔ ∃ e ∈ es, ∃ tup ∈ e.tupleData, s ∈ tupleClockStamps tup := by
  simp only [clockStamps, execTuples, List.mem_flatten, List.mem_map]
  constructor
  · rintro ⟨l, ⟨tup, ⟨l2, ⟨e, he, rfl⟩, htup⟩, rfl⟩, hs⟩
    exact ⟨e, he, tup, htup, hs⟩
  · rintro ⟨e, he, tup, htup, hs⟩
    exact ⟨tupleClockStamps tup, ⟨tup, ⟨e.tupleData, ⟨e, he, rfl⟩, htup⟩, rfl⟩, hs⟩

/-- C1 fails on the code: a file above the 10 MB threshold is processed
in chunks, and `process_dataframe` captures a fresh `datetime.now()` per
chunk (source line 180 runs once per call, and `import_data` calls it
once per chunk, source lines 310-316).  Here a 2-row file with an
11 MB size and `CHUNK_SIZE = 1` gets two distinct `loaded_at` instants,
one per row. -/
theorem c1_chunked_file_two_timestamps :
    clockStamps ((import_data
      ⟨fun _ => Option.none,
        fun _ => [("a", "text"), ("loaded_at", "timestamp without time zone")],
        fun _ => true, fun _ => ⟨["a"], [[PyVal.str "x"], [PyVal.str "y"]]⟩,
        fun _ => 11, 1⟩ "t.csv" "t" initialRunState).2.events) = [7, 11] ∧
    (7 : Nat) ≠ 11 :=
  ⟨by decide, by decide⟩

/-- C1 amended: all rows of one `process_dataframe` call share the one
timestamp captured at that call's start; hence a file at or below the
10 MB threshold (processed in a single call) gets a single shared
`loaded_at` instant for all its rows.  A larger file is chunked and only
rows within one chunk share an instant. -/
theorem c1_small_file_single_timestamp (orc : Oracles) (csvFile tableName : String)
    (st : RunState) (hsize : ¬ 10 < orc.sizeOf csvFile)
    (hcsv : rowsCSVShaped (orc.contentOf csvFile).rows = true) :
    ∀ v ∈ clockStamps
        ((import_data orc csvFile tableName st).2.events.drop st.events.length),
      ∀ w ∈ clockStamps
        ((import_data orc csvFile tableName st).2.events.drop st.events.length),
        v = w := by
  have key : ∀ v ∈ clockStamps
      ((import_data orc csvFile tableName st).2.events.drop st.events.length),
      v = (preparedState (cleanedDF (orc.contentOf csvFile)) tableName
        (orc.schemaOf tableName) (readState orc csvFile tableName st)).clock := by
    unfold import_data
    by_cases hs : (orc.schemaOf tableName).isEmpty = true
    · simp only [hs, if_true, logMsg_events, schemaState_events]
      rw [List.drop_left]
      intro v hv
      rcases mem_clockStamps.mp hv with ⟨e, he, tup, htup, _⟩
      rcases List.mem_cons.mp he with rfl | he
      · simp [Event.tupleData] at htup
      · rcases List.mem_cons.mp he with rfl | he
        · simp [Event.tupleData] at htup
        · simp at he
    · rw [if_neg hs]
      dsimp only
      rw [if_neg hsize]
      obtain ⟨es, h1, h2⟩ := process_dataframe_events orc (cleanedDF (orc.contentOf csvFile))
        tableName (orc.schemaOf tableName) (readState orc csvFile tableName st)
        (fun e => ∀ tup ∈ e.tupleData, ∀ s ∈ tupleClockStamps tup,
          s = (preparedState (cleanedDF (orc.contentOf csvFile)) tableName
            (orc.schemaOf tableName) (readState orc csvFile tableName st)).clock)
        (fun q => by intro tup htup; simp [Event.tupleData] at htup)
        (fun b d ok hb hd => by
          intro tup htup s hsmem
          refine batchRowsE_ok_stamps ?_ hd tup htup s hsmem
          rw [List.all_eq_true]
          intro r hr
          have hr' : r ∈ (orc.contentOf csvFile).rows :=
            chunksOf_mem_mem 1000 (cleanedDF (orc.contentOf csvFile)).rows b hb r hr
          exact List.all_eq_true.mp hcsv r hr')
      intro v hv
      rcases hsplit : (process_dataframe orc (cleanedDF (orc.contentOf csvFile)) tableName
          (orc.schemaOf tableName) (readState orc csvFile tableName st)).1 with e | n <;>
        rw [hsplit] at hv
      all_goals {
        simp only [logMsg_events] at hv
        rw [h1, readState_events, List.append_assoc, List.drop_left] at hv
        rcases mem_clockStamps.mp hv with ⟨e2, he, tup, htup, hsmem⟩
        rcases List.mem_cons.mp he with rfl | he
        · simp [Event.tupleData] at htup
        · rcases List.mem_cons.mp he with rfl | he
          · simp [Event.tupleData] at htup
          · exact h2 e2 he tup htup v hsmem
      }
  intro v hv w hw
  rw [key v hv, key w hw]

/-- Witness for the amended C1: a 5 MB (unchunked) 2-row file; both rows
get the same captured instant (tick 5). -/
theorem c1_small_file_single_timestamp_witness :
    (¬ 10 < (5 : ℚ)) ∧
    rowsCSVShaped [[PyVal.str "x"], [PyVal.str "y"]] = true ∧
    5 ∈ clockStamps ((import_data
      ⟨fun _ => Option.none,
        fun _ => [("a", "text"), ("loaded_at", "timestamp without time zone")],
        fun _ => true, fun _ => ⟨["a"], [[PyVal.str "x"], [PyVal.str "y"]]⟩,
        fun _ => 5, 1⟩ "t.csv" "t" initialRunState).2.events.drop
        initialRunState.events.length) ∧
    (5 : Nat) = 5 := by
  refine ⟨by decide, by decide, by decide, ?_⟩
  exact c1_small_file_single_timestamp
    ⟨fun _ => Option.none,
      fun _ => [("a", "text"), ("loaded_at", "timestamp without time zone")],
      fun _ => true, fun _ => ⟨["a"], [[PyVal.str "x"], [PyVal.str "y"]]⟩,
      fun _ => 5, 1⟩ "t.csv" "t" initialRunState (by decide) (by decide)
    5 (by decide) 5 (by decide)

/-- `import_data` never touches the report's file lists or status. -/
theorem import_data_quiet (orc : Oracles) (csvFile tableName : String) (st : RunState) :
    (import_data orc csvFile tableName st).2.processedFiles = st.processedFiles ∧
    (import_data orc csvFile tableName st).2.downloadedFiles = st.downloadedFiles ∧
    (import_data orc csvFile tableName st).2.status = st.status := by
  unfold import_data
  by_cases hs : (orc.schemaOf tableName).isEmpty = true
  · simp [hs]
  · rw [if_neg hs]
    dsimp only
    by_cases hsize : 10 < orc.sizeOf csvFile
    · rw [if_pos hsize]
      obtain ⟨q1, q2, q3⟩ := runChunks_quiet orc (cleanedDF (orc.contentOf csvFile)).columns
        tableName (orc.schemaOf tableName)
        (chunksOf orc.chunkSize (cleanedDF (orc.contentOf csvFile)).rows) 0
        (cleanedDF (orc.contentOf csvFile)).rows.length 0
        (logMsg "INFO" "Large file detected, processing in chunks"
          (readState orc csvFile tableName st))
      split <;> refine ⟨?_, ?_, ?_⟩ <;> simp [q1, q2, q3]
    · rw [if_neg hsize]
      obtain ⟨q1, q2, q3⟩ := process_dataframe_quiet orc (cleanedDF (orc.contentOf csvFile))
        tableName (orc.schemaOf tableName) (readState orc csvFile tableName st)
      split <;> refine ⟨?_, ?_, ?_⟩ <;> simp [q1, q2, q3]

/-- A file whose schema query returns no rows is recorded with count 0. -/
theorem import_data_schemaEmpty (orc : Oracles) (csvFile tableName : String)
    (st : RunState) (hs : (orc.schemaOf tableName).isEmpty = true) :
    (import_data orc csvFile tableName st).1 = 0 := by
  unfold import_data
  simp [hs]

/-- A file none of whose (cleaned) headers matches any schema column is
recorded with count 0 (Python's `False`). -/
theorem import_data_noMatch (orc : Oracles) (csvFile tableName : String) (st : RunState)
    (hm : (matchColumns ((orc.schemaOf tableName).map (fun c => c.1))
      (cleanedDF (orc.contentOf csvFile)).columns).1.isEmpty = true) :
    (import_data orc csvFile tableName st).1 = 0 := by
  unfold import_data
  by_cases hs : (orc.schemaOf tableName).isEmpty = true
  · simp [hs]
  · rw [if_neg hs]
    dsimp only
    by_cases hsize : 10 < orc.sizeOf csvFile
    · rw [if_pos hsize]
      have h0 := runChunks_noMatch orc (cleanedDF (orc.contentOf csvFile)).columns tableName
        (orc.schemaOf tableName) hm
        (chunksOf orc.chunkSize (cleanedDF (orc.contentOf csvFile)).rows) 0
        (cleanedDF (orc.contentOf csvFile)).rows.length 0
        (logMsg "INFO" "Large file detected, processing in chunks"
          (readState orc csvFile tableName st))
      split
      next n heq =>
        rw [h0] at heq
        cases heq
        try rfl
      next e heq =>
        rw [h0] at heq
        try exact Except.noConfusion heq
    · rw [if_neg hsize]
      have h0 := process_dataframe_noMatch orc (cleanedDF (orc.contentOf csvFile)) tableName
        (orc.schemaOf tableName) (readState orc csvFile tableName st) hm
      split
      next n heq =>
        rw [h0] at heq
        cases heq
        try rfl
      next e heq =>
        rw [h0] at heq
        try exact Except.noConfusion heq

/-- The per-file loop appends exactly one `(file, count)` pair per file,
in file order. -/
theorem runFiles_processed_fst (orc : Oracles) :
    ∀ (files : List String) (st : RunState),
      (runFiles orc st files).processedFiles.map Prod.fst
        = st.processedFiles.map Prod.fst ++ files := by
  intro files
  induction files with
  | nil => intro st; simp [runFiles]
  | cons f fs ih =>
    intro st
    simp only [runFiles]
    rw [ih]
    have hq := (import_data_quiet orc f (splitExtStem f) st).1
    simp [hq]

/-- Entries already in `processed_files` survive the per-file loop. -/
theorem runFiles_processed_mem (orc : Oracles) :
    ∀ (files : List String) (st : RunState) (x : String × Nat),
      x ∈ st.processedFiles → x ∈ (runFiles orc st files).processedFiles := by
  intro files
  induction files with
  | nil => intro st x hx; simpa [runFiles] using hx
  | cons f fs ih =>
    intro st x hx
    simp only [runFiles]
    apply ih
    have hq := (import_data_quiet orc f (splitExtStem f) st).1
    simp only [hq]
    exact List.mem_append_left _ hx

/-- The per-file loop leaves `downloaded_files` untouched. -/
theorem runFiles_downloadedFiles (orc : Oracles) :
    ∀ (files : List String) (st : RunState),
      (runFiles orc st files).downloadedFiles = st.downloadedFiles := by
  intro files
  induction files with
  | nil => intro st; simp [runFiles]
  | cons f fs ih =>
    intro st
    simp only [runFiles]
    rw [ih]
    exact (import_data_quiet orc f (splitExtStem f) st).2.1

/-- A file satisfying a zero-count condition appears as `(file, 0)`. -/
theorem runFiles_mem_zero (orc : Oracles) (cond : String → Prop)
    (hcond : ∀ (f : String) (st : RunState), cond f →
      (import_data orc f (splitExtStem f) st).1 = 0) :
    ∀ (files : List String) (st : RunState) (f : String),
      f ∈ files → cond f → (f, 0) ∈ (runFiles orc st files).processedFiles := by
  intro files
  induction files with
  | nil => intro st f hf; simp at hf
  | cons g fs ih =>
    intro st f hf hc
    rcases List.mem_cons.mp hf with rfl | hf
    · simp only [runFiles]
      apply runFiles_processed_mem
      have hq := (import_data_quiet orc f (splitExtStem f) st).1
      simp only [hq]
      rw [hcond f st hc]
      exact List.mem_append_right _ (List.mem_singleton.mpr rfl)
    · simp only [runFiles]
      exact ih _ f hf hc

/-- C9: in a run that gets past retrieval, every downloaded file appears
exactly once, in download order, in the report's processed-files list
(so the two lists align position by position), each paired with a row
count; a file whose schema query returns nothing, or whose headers match
no schema column, still appears, with count 0. -/
theorem c9_processed_files_alignment (tr : Transport) (orc : Oracles)
    (h : retrievedFiles tr ≠ []) :
    (run_import tr orc).processedFiles.map Prod.fst = retrievedFiles tr ∧
    (run_import tr orc).downloadedFiles = retrievedFiles tr ∧
    (∀ f ∈ retrievedFiles tr, (orc.schemaOf (splitExtStem f)).isEmpty = true →
      (f, 0) ∈ (run_import tr orc).processedFiles) ∧
    (∀ f ∈ retrievedFiles tr,
      (matchColumns ((orc.schemaOf (splitExtStem f)).map (fun c => c.1))
        (cleanedDF (orc.contentOf f)).columns).1.isEmpty = true →
      (f, 0) ∈ (run_import tr orc).processedFiles) := by
  have hemp : (retrievedFiles tr).isEmpty = false := by
    rw [List.isEmpty_eq_false]
    exact h
  simp only [run_import]
  rw [download_files_fst]
  simp only [hemp, Bool.false_eq_true, if_false, cleanupLogs_processedFiles,
    cleanupLogs_downloadedFiles, completeRun_processedFiles, completeRun_downloadedFiles,
    logMsg_processedFiles, logMsg_downloadedFiles, emitEvent_processedFiles,
    emitEvent_downloadedFiles]
  refine ⟨?_, ?_, ?_, ?_⟩
  · rw [runFiles_processed_fst]
    simp only [emitEvent_processedFiles, logMsg_processedFiles,
      download_files_processedFiles, initialRunState]
    rfl
  · rw [runFiles_downloadedFiles]
    simp only [emitEvent_downloadedFiles, logMsg_downloadedFiles]
    exact download_files_downloadedFiles_of_ne tr _ h
  · intro f hf hs
    exact runFiles_mem_zero orc (fun g => (orc.schemaOf (splitExtStem g)).isEmpty = true)
      (fun g stg hc => import_data_schemaEmpty orc g (splitExtStem g) stg hc)
      (retrievedFiles tr) _ f hf hs
  · intro f hf hm
    exact runFiles_mem_zero orc
      (fun g => (matchColumns ((orc.schemaOf (splitExtStem g)).map (fun c => c.1))
        (cleanedDF (orc.contentOf g)).columns).1.isEmpty = true)
      (fun g stg hc => import_data_noMatch orc g (splitExtStem g) stg hc)
      (retrievedFiles tr) _ f hf hm

/-- Witness for C9: one downloaded file, whose table has an empty
schema, appears as the single processed entry with count 0. -/
theorem c9_processed_files_alignment_witness :
    retrievedFiles ⟨true, true, some ["t.csv"], fun _ => true⟩ ≠ [] ∧
    (run_import ⟨true, true, some ["t.csv"], fun _ => true⟩
      ⟨fun _ => Option.none, fun _ => [], fun _ => true, fun _ => ⟨[], []⟩,
        fun _ => 0, 10000⟩).processedFiles.map Prod.fst
      = retrievedFiles ⟨true, true, some ["t.csv"], fun _ => true⟩ ∧
    ("t.csv", 0) ∈ (run_import ⟨true, true, some ["t.csv"], fun _ => true⟩
      ⟨fun _ => Option.none, fun _ => [], fun _ => true, fun _ => ⟨[], []⟩,
        fun _ => 0, 10000⟩).processedFiles := by
  refine ⟨by decide, ?_, ?_⟩
  · exact (c9_processed_files_alignment ⟨true, true, some ["t.csv"], fun _ => true⟩
      ⟨fun _ => Option.none, fun _ => [], fun _ => true, fun _ => ⟨[], []⟩,
        fun _ => 0, 10000⟩ (by decide)).1
  · exact (c9_processed_files_alignment ⟨true, true, some ["t.csv"], fun _ => true⟩
      ⟨fun _ => Option.none, fun _ => [], fun _ => true, fun _ => ⟨[], []⟩,
        fun _ => 0, 10000⟩ (by decide)).2.2.1 "t.csv" (by decide) (by decide)
